import Mathlib

/-!
Verification of the quant02 signal pipeline against its specification.

The TypeScript sources are shallowly embedded: finite JS numbers are
modelled as rationals (prices, quantities, strengths) or integers
(millisecond timestamps, counters); values that may be NaN or absent on
the wire are modelled as Option.  Stateful services become explicit
state-passing functions; Redis round trips become oracle inputs.
-/

namespace Quant

/-- Trade / signal direction. -/
inductive Dir where
  | buy
  | sell
deriving DecidableEq, Repr

/-- Model of the JS helper clamp01 / clip01: clamp a number into [0, 1]. -/
def clamp01 (x : ℚ) : ℚ := max 0 (min 1 x)

/-- Model of Number.prototype.toFixed(n) on a finite value, seen as the
rational the produced decimal string denotes: round half up to n decimal
places.  JS formats the binary double nearest to the mathematical value;
for the inputs in this development the two agree. -/
def toFixedQ (n : ℕ) (x : ℚ) : ℚ := (round (x * (10 : ℚ) ^ n) : ℤ) / (10 : ℚ) ^ n

/-- Model of roundTo from IntraAggregator: Math.round(x / step) * step. -/
def roundToStep (x step : ℚ) : ℚ := (round (x / step) : ℤ) * step

/-- Model of Math.floor on an exact integer division (JS computes
Math.floor(ts / 60000) on reals; for integer ts this is floor division). -/
def jsFloorDiv (a b : ℤ) : ℤ := Int.fdiv a b

/-! ## Signal Evaluator (src/window/signal-evaluator.service.ts) -/

/-- ceilToNextMinute from signal-evaluator.service.ts:
Math.floor((ms - 1) / 60000) * 60000 + 60000. -/
def ceilToNextMinute (ms : ℤ) : ℤ := jsFloorDiv (ms - 1) 60000 * 60000 + 60000

/-- Evaluator environment configuration (EVAL_SUCCESS_BP etc). -/
structure EvalCfg where
  successBp : ℚ
  neutralBandBp : ℚ
  feeBp : ℚ
  maxRetry : ℕ
deriving DecidableEq, Repr

/-- Defaults: successBp=5, neutralBandBp=2, feeBp=0, maxRetry=6. -/
def defaultEvalCfg : EvalCfg := { successBp := 5, neutralBandBp := 2, feeBp := 0, maxRetry := 6 }

/-- Pending evaluation job (type Job in signal-evaluator.service.ts).
The id / finalId strings are irrelevant to the arithmetic and kept as data. -/
structure Job where
  sym : String
  dir : Dir
  ts0 : ℤ
  p0 : ℚ
  hzMs : ℤ
  hzName : String
  dueAt : ℤ
  retry : ℕ
deriving DecidableEq, Repr

/-- Price resolver result (PriceResolverService.getPriceAt): a price, an
optional timestamp and a source tag. -/
structure PriceHit where
  px : ℚ
  ts : Option ℤ
  source : String
deriving DecidableEq, Repr

/-- Audit row appended to eval:done:{sym}.  Numeric fields hold the
rational value denoted by the decimal string the service writes;
retRawBp / retNetBp are none on a miss row (the service writes them as
empty strings there). -/
structure EvalRow where
  ts0 : ℤ
  dueAt : ℤ
  horizon : String
  dir : Dir
  p0 : ℚ
  usedPx : Option ℚ
  usedPxTs : ℤ
  usedPxSource : String
  priceLagMs : ℤ
  retRawBp : Option ℚ
  retNetBp : Option ℚ
  thresholdBp : ℚ
  neutralBandBp : ℚ
  neutral : Bool
  success : Bool
  missPx : Bool
  retry : ℕ
deriving DecidableEq, Repr

/-- Result of one due job inside tickResolve. -/
inductive TickResult where
  | notDue
  | retryWait (j : Job)
  | emit (row : EvalRow) (removed : Bool)
deriving DecidableEq, Repr

/-- The miss_px audit row written after maxRetry unsuccessful resolutions. -/
def missRow (cfg : EvalCfg) (j : Job) : EvalRow :=
  { ts0 := j.ts0
    dueAt := j.dueAt
    horizon := j.hzName
    dir := j.dir
    p0 := j.p0
    usedPx := none
    usedPxTs := 0
    usedPxSource := "na"
    priceLagMs := 0
    retRawBp := none
    retNetBp := none
    thresholdBp := cfg.successBp
    neutralBandBp := cfg.neutralBandBp
    neutral := false
    success := false
    missPx := true
    retry := j.retry }

/-- Model of the per-job body of SignalEvaluatorService.tickResolve.
The job is processed only when dueAt has passed; hit is the price
resolver result at dueAt.  hasP1 mirrors the source check
(!!hit && Number.isFinite(hit.px) && hit.px > 0); a finite rational
always satisfies the isFinite part.  On success the service appends
exactly one row computed from p1. -/
def tickResolveJob (cfg : EvalCfg) (now : ℤ) (j : Job) (hit : Option PriceHit) :
    TickResult :=
  if j.dueAt ≤ now then
    -- hasP1 case split: resolver returned a (finite) positive price
    match hit with
    | some h =>
      if 0 < h.px then
        -- has p1: compute returns
        let p1 := h.px
        let p1ts := h.ts.getD j.dueAt
        let priceLagMs := max 0 (p1ts - j.dueAt)
        let rawBp : ℚ :=
          match j.dir with
          | .buy => (p1 / j.p0 - 1) * 10000
          | .sell => (j.p0 / p1 - 1) * 10000
        let netBp := rawBp - cfg.feeBp
        let isNeutral := |netBp| < cfg.neutralBandBp
        let isSuccess := ¬isNeutral ∧ cfg.successBp ≤ netBp
        .emit
          { ts0 := j.ts0
            dueAt := j.dueAt
            horizon := j.hzName
            dir := j.dir
            p0 := j.p0
            usedPx := some p1
            usedPxTs := p1ts
            usedPxSource := h.source
            priceLagMs := priceLagMs
            retRawBp := some (toFixedQ 4 rawBp)
            retNetBp := some (toFixedQ 4 netBp)
            thresholdBp := cfg.successBp
            neutralBandBp := cfg.neutralBandBp
            neutral := decide isNeutral
            success := decide isSuccess
            missPx := false
            retry := j.retry } true
      else
        if j.retry < cfg.maxRetry then .retryWait { j with retry := j.retry + 1 }
        else .emit (missRow cfg j) true
    | none =>
      if j.retry < cfg.maxRetry then .retryWait { j with retry := j.retry + 1 }
      else .emit (missRow cfg j) true
  else .notDue

/-! ## Window state (src/window/window.state.ts, bundled with symbol.config.ts) -/

/-- Win1m record.  The source keeps open/high/low/last as decimal strings
and compares them through Number(); here they are the rationals those
strings denote (the claims only involve finite numeric prices). -/
structure Win1m where
  startTs : ℤ
  closeTs : ℤ
  open' : ℚ
  high : ℚ
  low : ℚ
  last : ℚ
  vol : ℚ
  vbuy : ℚ
  vsell : ℚ
  vwapNum : ℚ
  vwapDen : ℚ
  tickN : ℕ
deriving DecidableEq, Repr

/-- newWin1m from window.state.ts. -/
def newWin1m (closeTs : ℤ) (firstPx : ℚ) : Win1m :=
  { startTs := closeTs - 60000
    closeTs := closeTs
    open' := firstPx
    high := firstPx
    low := firstPx
    last := firstPx
    vol := 0
    vbuy := 0
    vsell := 0
    vwapNum := 0
    vwapDen := 0
    tickN := 0 }

/-- applyTrade from window.state.ts.  The Number.isFinite(q) guard of the
source always holds for a rational quantity, so the volume block is
unconditional here; the claims restrict to finite trade fields. -/
def applyTrade (w : Win1m) (px qty : ℚ) (side : Option Dir) : Win1m :=
  { w with
    last := px
    high := if w.high < px then px else w.high
    low := if px < w.low then px else w.low
    vol := w.vol + qty
    vbuy := w.vbuy + (if side = some .buy then qty else 0)
    vsell := w.vsell + (if side = some .sell then qty else 0)
    vwapNum := w.vwapNum + px * qty
    vwapDen := w.vwapDen + qty
    tickN := w.tickN + 1 }

/-- vwapOf from window.state.ts. -/
def vwapOf (w : Win1m) : ℚ := if 0 < w.vwapDen then w.vwapNum / w.vwapDen else w.last

/-- Sealed bar row appended to win:1m / win:5m / win:15m
(WindowWorkerService.seal1m / sealTf field list). -/
structure BarRow where
  ts : ℤ
  open' : ℚ
  high : ℚ
  low : ℚ
  close : ℚ
  vol : ℚ
  vbuy : ℚ
  vsell : ℚ
  vwap : ℚ
  tickN : ℕ
  gap : Bool
deriving DecidableEq, Repr

/-- The row seal1m / sealTf writes for a finished window s with gap flag. -/
def sealRow (s : Win1m) (gap : Bool) : BarRow :=
  { ts := s.closeTs
    open' := s.open'
    high := s.high
    low := s.low
    close := s.last
    vol := s.vol
    vbuy := s.vbuy
    vsell := s.vsell
    vwap := vwapOf s
    tickN := s.tickN
    gap := gap }

/-! ## Window worker roll-up (WindowWorkerService.rollUpGeneric) -/

/-- TF close boundary: Math.floor((m1.closeTs - 1) / tfMs) * tfMs + tfMs. -/
def tfCloseOf (closeTs1m tfMs : ℤ) : ℤ := jsFloorDiv (closeTs1m - 1) tfMs * tfMs + tfMs

/-- The fresh TF window rollUpGeneric creates, seeded from the first
contributing 1m bar: open/high/low/last all start at m1.open and the
additive fields at zero. -/
def newTfWin (tfClose tfMs : ℤ) (m1open : ℚ) : Win1m :=
  { startTs := tfClose - tfMs
    closeTs := tfClose
    open' := m1open
    high := m1open
    low := m1open
    last := m1open
    vol := 0
    vbuy := 0
    vsell := 0
    vwapNum := 0
    vwapDen := 0
    tickN := 0 }

/-- The accumulation block of rollUpGeneric: fold one sealed 1m bar into
the open TF window. -/
def accumTf (w : Win1m) (m1 : Win1m) : Win1m :=
  { w with
    last := m1.last
    high := if w.high < m1.high then m1.high else w.high
    low := if m1.low < w.low then m1.low else w.low
    vol := w.vol + m1.vol
    vbuy := w.vbuy + m1.vbuy
    vsell := w.vsell + m1.vsell
    tickN := w.tickN + m1.tickN
    vwapNum := w.vwapNum + m1.vwapNum
    vwapDen := w.vwapDen + m1.vwapDen }

/-- A TF (5m/15m) window built from exactly the 1m bars in the list
bars = b0 :: rest: created at b0 with seed open b0.open and then
accumulating every contributing bar, b0 included (rollUpGeneric creates
the window and then falls through to the accumulation block). -/
def rollUpRun (tfClose tfMs : ℤ) (b0 : Win1m) (rest : List Win1m) : Win1m :=
  rest.foldl accumTf (accumTf (newTfWin tfClose tfMs b0.open') b0)

/-! ## Flow3s sliding window (WindowWorkerService.pushFlow3s) -/

/-- One entry of the 3 second notional-flow buffer. -/
structure FlowEntry where
  ts : ℤ
  buy : ℚ
  sell : ℚ
deriving DecidableEq, Repr

/-- Per-symbol Flow3s state (map value in WindowWorkerService.flow3s). -/
structure Flow3s where
  buy : ℚ
  sell : ℚ
  buf : List FlowEntry
  maxTs : ℤ
deriving DecidableEq, Repr

/-- Initial Flow3s state: { buy: 0, sell: 0, buf: [], maxTs: 0 }. -/
def initFlow3s : Flow3s := { buy := 0, sell := 0, buf := [], maxTs := 0 }

/-- Parsed trade consumed by the worker (fields already finite). -/
structure TradeEv where
  ts : ℤ
  px : ℚ
  qty : ℚ
  side : Option Dir
deriving DecidableEq, Repr

/-- The head-trimming loop of pushFlow3s: drop buffer heads with
ts < cutoff, subtracting them from the running sums. -/
def trimFlow (cutoff : ℤ) : List FlowEntry → ℚ → ℚ → List FlowEntry × ℚ × ℚ
  | [], b, s => ([], b, s)
  | x :: rest, b, s =>
    if x.ts < cutoff then trimFlow cutoff rest (b - x.buy) (s - x.sell)
    else (x :: rest, b, s)

/-- The buffer entry pushFlow3s builds for a trade: the per-side
notional px * qty * contractMultiplier. -/
def flowEntryOf (t : TradeEv) (cm : ℚ) : FlowEntry :=
  let notional := t.px * t.qty * cm
  { ts := t.ts
    buy := if t.side = some .buy then notional else 0
    sell := if t.side = some .sell then notional else 0 }

/-- pushFlow3s from window-worker.service.ts (strict window version with
maxTs): raise maxTs, append the trade when it is still inside the
window, then trim the head. FLOW_WINDOW_MS = 3000; cm is the contract
multiplier of the effective symbol config. -/
def pushFlow3s (f : Flow3s) (t : TradeEv) (cm : ℚ) : Flow3s :=
  let maxTs := max f.maxTs t.ts
  let e := flowEntryOf t cm
  let cutoff := maxTs - 3000
  let (buf, b, s) :=
    if cutoff ≤ t.ts then (f.buf ++ [e], f.buy + e.buy, f.sell + e.sell)
    else (f.buf, f.buy, f.sell)
  let (buf, b, s) := trimFlow cutoff buf b s
  { buy := b, sell := s, buf := buf, maxTs := maxTs }

/-! ## Intra-bar detectors (src/window/detectors/intra-detectors.ts) -/

/-- Candidate source tag. -/
inductive CandSource where
  | breakout
  | delta
  | flow
  | unknown
deriving DecidableEq, Repr

/-- The data of the quantized dedup signature built by
IntraAggregator.buildApproxKey.  The source renders it as the string
sym|dir|src|st|z:Z|sh:S with Z, S the 2dp renderings of the 0.05 / 0.02
step-rounded values (or na when NaN); that rendering is injective on
this data, so string equality coincides with equality here. -/
structure ApproxKeyData where
  sym : String
  dir : Dir
  src : CandSource
  st : ℤ
  z : Option ℚ
  sh : Option ℚ
deriving DecidableEq, Repr

/-- Evidence value on a detected signal.  In the source every evidence
value is a string; here a value is tagged by how it was produced:
str for plain tags, num v for the decimal rendering of the (already
rounded) finite number v, and akey for the approx-key signature the
aggregator adds.  Number() parsing of a num rendering recovers v, and
parsing of the other two yields NaN for every value this code builds. -/
inductive EvVal where
  | str (v : String)
  | num (v : ℚ)
  | akey (v : ApproxKeyData)
deriving DecidableEq, Repr

/-- Detected intra signal (type IntraSignal).  strength is the rational
denoted by the 3dp string the detectors emit. -/
structure IntraSignal where
  ts : ℤ
  dir : Dir
  strength : ℚ
  evidence : List (String × EvVal)
  kind : Option String
deriving DecidableEq, Repr

/-- Detector context (type DetectorCtx).  The worker passes its live
Win1m, whose optional atr field does not exist, so the aggregator ATR
fallback always takes the band path. -/
structure DetectorCtx where
  now : ℤ
  sym : String
  win : Win1m
  lastPrices : List ℚ
  buyNotional3s : ℚ
  sellNotional3s : ℚ
  minNotional3s : ℚ
  breakoutBandPct : ℚ
  dynAbsDelta : ℚ
  dynDeltaK : ℚ
  liqK : ℚ
deriving Repr

/-- Lookup of an evidence key (object property access). -/
def evLookup (k : String) (ev : List (String × EvVal)) : Option EvVal :=
  (ev.find? (fun p => p.1 = k)).map (fun p => p.2)

/-- safeNum from IntraAggregator: Number() of an evidence string, none
for NaN.  A num value parses back to itself; tag strings and the
approx-key rendering never parse as numbers. -/
def safeNum : Option EvVal → Option ℚ
  | some (.num v) => some v
  | _ => none

/-- JS truthiness of an evidence string: present and non-empty (every
numeric or approx-key rendering is non-empty). -/
def evTruthy : Option EvVal → Bool
  | none => false
  | some (.str v) => v ≠ ""
  | some (.num _) => true
  | some (.akey _) => true

/-- detAggressiveFlow from intra-detectors.ts. -/
def detAggressiveFlow (ctx : DetectorCtx) : Option IntraSignal :=
  let buy := ctx.buyNotional3s
  let sell := ctx.sellNotional3s
  let sum := buy + sell
  let liqTh := max ctx.minNotional3s (ctx.liqK * ctx.dynAbsDelta)
  if ¬ liqTh < sum then none
  else
    let buyShare := if 0 < sum then buy / sum else 1/2
    let delta := buy - sell
    let absDelta := |delta|
    let dynTh := max ctx.minNotional3s ctx.dynAbsDelta
    let emit := fun (dir : Dir) (shareStrength0 : ℚ) =>
      let shareStrength := clamp01 shareStrength0
      let signif := clamp01 (absDelta / (3 * dynTh))
      let strength := clamp01 (3/5 * shareStrength + 2/5 * signif)
      some
        { ts := ctx.now
          dir := dir
          strength := toFixedQ 3 strength
          kind := some "intra"
          evidence :=
            [("src", .str "flow"),
             ("buyShare3s", .num (toFixedQ 3 buyShare)),
             ("notional3s", .num (toFixedQ 2 sum)),
             ("delta3s", .num (toFixedQ 2 delta)),
             ("liqTh", .num ((round liqTh : ℤ) : ℚ)),
             ("signif", .num (toFixedQ 3 signif))] }
    if 4/5 ≤ buyShare then emit .buy ((buyShare - 3/4) / (1/4))
    else if buyShare ≤ 1/5 then emit .sell ((1/4 - buyShare) / (1/4))
    else none

/-- detDeltaStrength from intra-detectors.ts. -/
def detDeltaStrength (ctx : DetectorCtx) : Option IntraSignal :=
  let delta := ctx.buyNotional3s - ctx.sellNotional3s
  let sum := ctx.buyNotional3s + ctx.sellNotional3s
  let liqTh := max (1/2 * ctx.minNotional3s) (1/2 * ctx.liqK * ctx.dynAbsDelta)
  if sum < liqTh then none
  else
    let dynTh := max ctx.minNotional3s (ctx.dynAbsDelta * ctx.dynDeltaK)
    let base := |delta|
    if ¬ dynTh < base then none
    else
      let denom := max (1/1000000000) ctx.dynAbsDelta
      let zLike := base / denom
      let strength := clamp01 (base / (4 * dynTh))
      some
        { ts := ctx.now
          dir := if 0 < delta then .buy else .sell
          strength := toFixedQ 3 strength
          kind := some "intra"
          evidence :=
            [("src", .str "delta"),
             ("delta3s", .num (toFixedQ 2 delta)),
             ("dynTh", .num ((round dynTh : ℤ) : ℚ)),
             ("zLike", .num (toFixedQ 3 zLike))] }

/-- detBreakout from intra-detectors.ts. -/
def detBreakout (ctx : DetectorCtx) : Option IntraSignal :=
  let last := ctx.win.last
  let hh := ctx.win.high
  let ll := ctx.win.low
  let band := hh - ll
  if ¬ 0 < band then none
  else
    let pct := min (1/5) (max 0 ctx.breakoutBandPct)
    let eps := band * pct
    let lp := ctx.lastPrices
    let slope :=
      if 3 ≤ lp.length then
        ((lp.getLast?).getD 0 - (lp.head?).getD 0) / max 1 ((lp.length : ℚ) - 1)
      else 0
    let sum3s := ctx.buyNotional3s + ctx.sellNotional3s
    let volConfirm := 1/2 * ctx.dynAbsDelta ≤ sum3s
    if hh + eps ≤ last ∧ (0 < slope ∨ volConfirm) then
      let dist := (last - (hh + eps)) / band
      let strength := clamp01 (11/20 + min (7/20) (dist * 2) + if 0 < slope then 1/10 else 0)
      some
        { ts := ctx.now
          dir := .buy
          strength := toFixedQ 3 strength
          kind := some "intra"
          evidence :=
            [("src", .str "breakout"),
             ("breakout", .str "high"),
             ("band", .num (toFixedQ 2 band)),
             ("eps", .num (toFixedQ 6 eps)),
             ("dist", .num (toFixedQ 3 dist)),
             ("slope", .num (toFixedQ 6 slope)),
             ("volConfirm", .num (if volConfirm then 1 else 0))] }
    else if last ≤ ll - eps ∧ (slope < 0 ∨ volConfirm) then
      let dist := (ll - eps - last) / band
      let strength := clamp01 (11/20 + min (7/20) (dist * 2) + if slope < 0 then 1/10 else 0)
      some
        { ts := ctx.now
          dir := .sell
          strength := toFixedQ 3 strength
          kind := some "intra"
          evidence :=
            [("src", .str "breakout"),
             ("breakout", .str "low"),
             ("band", .num (toFixedQ 2 band)),
             ("eps", .num (toFixedQ 6 eps)),
             ("dist", .num (toFixedQ 3 dist)),
             ("slope", .num (toFixedQ 6 slope)),
             ("volConfirm", .num (if volConfirm then 1 else 0))] }
    else none

/-! ## Intra aggregator (src/window/detectors/IntraAggregator.ts) -/

/-- AggregatorConfig. -/
structure AggregatorConfig where
  minStrength : ℚ
  minStrengthFloor : ℚ
  consensusK : ℚ
  consensusKHiVolDiscount : ℚ
  cooldownMs : ℤ
  dedupMs : ℤ
  bucketZLike : ℚ
  bucketBuyShare : ℚ
  minMoveBp : ℚ
  minMoveAtrRatio : ℚ
  symmetryStrengthEps : ℚ
deriving Repr

/-- DEFAULT_CFG. -/
def defaultAggCfg : AggregatorConfig :=
  { minStrength := 13/20
    minStrengthFloor := 3/5
    consensusK := 2/25
    consensusKHiVolDiscount := 1/2
    cooldownMs := 7000
    dedupMs := 3000
    bucketZLike := 1/20
    bucketBuyShare := 1/50
    minMoveBp := 3
    minMoveAtrRatio := 1/5
    symmetryStrengthEps := 3/100 }

/-- The clamping applied by the IntraAggregator constructor after merging
the partial config over the defaults. -/
def clampAggCfg (c : AggregatorConfig) : AggregatorConfig :=
  { c with
    minStrength := clamp01 c.minStrength
    minStrengthFloor := clamp01 c.minStrengthFloor
    consensusK := max 0 (min (1/5) c.consensusK)
    consensusKHiVolDiscount := clamp01 c.consensusKHiVolDiscount }

/-- The config the WindowWorker builds per symbol: the effective
cooldownMs / dedupMs / minStrength merged over DEFAULT_CFG, then clamped
by the constructor. -/
def workerAggCfg (cooldownMs dedupMs : ℤ) (minStrength : ℚ) : AggregatorConfig :=
  clampAggCfg { defaultAggCfg with
    cooldownMs := cooldownMs, dedupMs := dedupMs, minStrength := minStrength }

/-- Aggregator per-symbol-and-direction state maps; none models an
absent map entry. -/
structure AggState where
  lastEmitTs : String → Dir → Option ℤ
  lastEmitPx : String → Dir → Option ℚ
  lastSigKey : String → Dir → Option ApproxKeyData

/-- Fresh aggregator state (also the state after reset()). -/
def initAggState : AggState :=
  { lastEmitTs := fun _ _ => none
    lastEmitPx := fun _ _ => none
    lastSigKey := fun _ _ => none }

/-- srcOf from IntraAggregator.ts. -/
def srcOf (s : IntraSignal) : CandSource :=
  let src := evLookup "src" s.evidence
  if src = some (.str "breakout") then .breakout
  else if src = some (.str "delta") then .delta
  else if src = some (.str "flow") then .flow
  else if evTruthy (evLookup "breakout" s.evidence) then .breakout
  else if evTruthy (evLookup "zLike" s.evidence) then .delta
  else if evTruthy (evLookup "buyShare3s" s.evidence) then .flow
  else .unknown

/-- srcOrder rank used by both sort comparators. -/
def srcRank : CandSource → ℤ
  | .breakout => 3
  | .delta => 2
  | .flow => 1
  | .unknown => 0

/-- Stable insertion of x after every element y with le y x. -/
def stableInsert (le : α → α → Bool) (x : α) : List α → List α
  | [] => [x]
  | y :: ys => if le y x then y :: stableInsert le x ys else x :: y :: ys

/-- Stable sort: the unique stable reordering under a total preorder le,
matching the (stable) JS Array.prototype.sort with a consistent
comparator cmp via le a b = (cmp a b ≤ 0). -/
def stableSortLE (le : α → α → Bool) (l : List α) : List α :=
  l.foldl (fun acc x => stableInsert le x acc) []

/-- Comparator of the stable candidate ordering (detect step 1):
source rank descending, then buy before sell, then strength
descending; le a b means cmp(a, b) ≤ 0. -/
def candLE (a b : IntraSignal) : Bool :=
  let sa := srcRank (srcOf a)
  let sb := srcRank (srcOf b)
  if sa ≠ sb then sb ≤ sa
  else if a.dir ≠ b.dir then a.dir = .buy
  else b.strength ≤ a.strength

/-- Comparator of the final choice (detect step 4): strength descending,
then source rank descending. -/
def chooseLE (a b : IntraSignal) : Bool :=
  if a.strength ≠ b.strength then b.strength ≤ a.strength
  else srcRank (srcOf b) ≤ srcRank (srcOf a)

/-- Math.max over the strengths of a non-empty candidate list. -/
def maxStrengthOf : List IntraSignal → ℚ
  | [] => 0
  | s :: rest => rest.foldl (fun m x => max m x.strength) s.strength

/-- symmetryGate from IntraAggregator.ts: false blocks the emission. -/
def symmetryGate (cfg : AggregatorConfig) (buyArr sellArr : List IntraSignal) : Bool :=
  if buyArr.length = 0 ∨ sellArr.length = 0 then true
  else
    let nDiff := (buyArr.length : ℤ) - sellArr.length
    if 1 ≤ |nDiff| then true
    else cfg.symmetryStrengthEps ≤ |maxStrengthOf buyArr - maxStrengthOf sellArr|

/-- getAtr from IntraAggregator.ts.  The worker Win1m has no atr
property, so Number(undefined) is NaN and the band fallback always
applies; high and low are finite rationals, hence the band branch. -/
def getAtr (ctx : DetectorCtx) : ℚ :=
  let band := max (1/1000000000000) (ctx.win.high - ctx.win.low)
  if 0 < band then max (1/1000000000000) (band * (2/3)) else 1/1000000000000

/-- passMinMove from IntraAggregator.ts.  ctx.win.last is a finite
rational, so the NaN escape of the source never fires. -/
def passMinMove (cfg : AggregatorConfig) (st : AggState) (ctx : DetectorCtx)
    (dir : Dir) : Bool :=
  let lastPx := ctx.win.last
  match st.lastEmitPx ctx.sym dir with
  | none => true
  | some prev =>
    let atr := getAtr ctx
    let bpMove := |(lastPx - prev) / lastPx| * 10000
    let atrMove := |lastPx - prev| / max (1/1000000000000) atr
    decide (max cfg.minMoveBp 0 ≤ bpMove ∧ cfg.minMoveAtrRatio ≤ atrMove)

/-- buildApproxKey from IntraAggregator.ts, as the data the rendered
string encodes (z and sh are none when safeNum yields NaN, rendered na). -/
def buildApproxKey (cfg : AggregatorConfig) (sym : String) (dir : Dir)
    (s : IntraSignal) : ApproxKeyData :=
  { sym := sym
    dir := dir
    src := srcOf s
    st := round (s.strength * 100)
    z := (safeNum (evLookup "zLike" s.evidence)).map (fun v => roundToStep v cfg.bucketZLike)
    sh := (safeNum (evLookup "buyShare3s" s.evidence)).map
      (fun v => roundToStep v cfg.bucketBuyShare) }

/-- Decimal rendering of k / 10^n with exactly n fractional digits,
for a natural k. -/
def natFixedStr (n : ℕ) (k : ℕ) : String :=
  let ip := k / 10 ^ n
  let fp := k % 10 ^ n
  if n = 0 then toString ip
  else
    let fs := toString fp
    let pad := String.mk (List.replicate (n - fs.length) (Char.ofNat 48))
    toString ip ++ "." ++ pad ++ fs

/-- Rendering of a number already rounded to n decimal places, as
toFixed(n) prints it. -/
def fixedStr (n : ℕ) (x : ℚ) : String :=
  let m : ℤ := round (x * (10 : ℚ) ^ n)
  if m < 0 then "-" ++ natFixedStr n m.natAbs else natFixedStr n m.toNat

/-- dir rendering. -/
def dirStr : Dir → String
  | .buy => "buy"
  | .sell => "sell"

/-- CandSource rendering. -/
def candSourceStr : CandSource → String
  | .breakout => "breakout"
  | .delta => "delta"
  | .flow => "flow"
  | .unknown => "unknown"

/-- JSON.stringify of the ordered candidate digest hashed into
candidates_hash: an array of objects with keys dir, src, st. -/
def candJson (l : List IntraSignal) : String :=
  let item := fun (s : IntraSignal) =>
    "\x7b\"dir\":\"" ++ dirStr s.dir ++ "\",\"src\":\"" ++ candSourceStr (srcOf s)
      ++ "\",\"st\":\"" ++ fixedStr 3 s.strength ++ "\"\x7d"
  "[" ++ String.intercalate "," (l.map item) ++ "]"

/-- One step of the FNV-1a style hash in IntraAggregator.hashStr:
(h xor c) * 16777619 modulo 2 ^ 32. -/
def fnv1aStep (h : ℕ) (c : ℕ) : ℕ := (h ^^^ c) * 16777619 % 2 ^ 32

/-- Lowercase hex digits of n (toString(16)). -/
def natHex : ℕ → String
  | n =>
    let digits := Nat.toDigits 16 n
    String.mk digits

/-- hashStr from IntraAggregator.ts over the UTF-16 code units of s;
all strings hashed here are ASCII so the code units are the Lean
character codes. -/
def hashStr (s : String) : String :=
  natHex ((s.toList.map Char.toNat).foldl fnv1aStep 2166136261)

/-- Pointwise update of a sym-dir keyed map. -/
def updMap (m : String → Dir → Option α) (sym : String) (dir : Dir) (v : α) :
    String → Dir → Option α :=
  fun s d => if s = sym ∧ d = dir then some v else m s d

/-- Steps 1-4 of IntraAggregator.detect (all state-independent):
generate the three candidates, order them stably, apply the consensus
gate with the floor and the high-vol discount, the direction symmetry
gate, and pick the strongest candidate. -/
def aggChoose (cfg : AggregatorConfig) (ctx : DetectorCtx) : Option IntraSignal :=
  let cands := [detAggressiveFlow ctx, detDeltaStrength ctx, detBreakout ctx].filterMap id
  if cands.isEmpty then none
  else
    let ordered := stableSortLE candLE cands
    let buyArr := ordered.filter (fun s => s.dir = .buy)
    let sellArr := ordered.filter (fun s => s.dir = .sell)
    let hiVol := 0 < ctx.dynAbsDelta ∧ 3/2 * ctx.minNotional3s < ctx.dynAbsDelta
    let kEff := if hiVol then cfg.consensusK * cfg.consensusKHiVolDiscount else cfg.consensusK
    let effMinOf := fun (arr : List IntraSignal) =>
      max cfg.minStrengthFloor (cfg.minStrength - kEff * ((arr.length : ℚ) - 1))
    let strong := buyArr.filter (fun s => effMinOf buyArr ≤ s.strength)
      ++ sellArr.filter (fun s => effMinOf sellArr ≤ s.strength)
    if strong.isEmpty then none
    else
      let strongBuy := strong.filter (fun s => s.dir = .buy)
      let strongSell := strong.filter (fun s => s.dir = .sell)
      if ¬ symmetryGate cfg strongBuy strongSell then none
      else
        match stableSortLE chooseLE strong with
        | [] => none
        | chosen :: _ => some chosen

/-- Step 9 of IntraAggregator.detect: enrich the chosen evidence with
the direction, the candidates hash over the stable ordering, the
approx key and the per-direction zLike / buyShare maxima. -/
def aggEnrich (ctx : DetectorCtx) (chosen : IntraSignal) (approxKey : ApproxKeyData) :
    IntraSignal :=
  let ordered := stableSortLE candLE
    ([detAggressiveFlow ctx, detDeltaStrength ctx, detBreakout ctx].filterMap id)
  let buyArr := ordered.filter (fun s => s.dir = .buy)
  let sellArr := ordered.filter (fun s => s.dir = .sell)
  let dirArr := if chosen.dir = .buy then buyArr else sellArr
  let zAgg := (dirArr.filterMap (fun s => safeNum (evLookup "zLike" s.evidence))).max?
  let shAgg := (dirArr.filterMap (fun s => safeNum (evLookup "buyShare3s" s.evidence))).max?
  let candidatesHash := hashStr (candJson ordered)
  { chosen with
    kind := some "intra"
    evidence := chosen.evidence ++
      [("dir", .str (dirStr chosen.dir)),
       ("candidates_hash", .str candidatesHash),
       ("approx_key", .akey approxKey),
       ("zLike_max",
         match zAgg with
         | some v => .num (toFixedQ 3 v)
         | none => .str ""),
       ("buyShare3s_max",
         match shAgg with
         | some v => .num (toFixedQ 3 v)
         | none => .str "")] }

/-- IntraAggregator.detect: the pure choice of steps 1-4 (aggChoose),
then the stateful gates in source order (cooldown, min-move, dedup),
state recording and evidence enrichment, returning the new state and
the emitted signal. -/
def aggDetect (cfg : AggregatorConfig) (st : AggState) (ctx : DetectorCtx) :
    AggState × Option IntraSignal :=
  match aggChoose cfg ctx with
  | none => (st, none)
  | some chosen =>
    let now := ctx.now
    let lastTs := (st.lastEmitTs ctx.sym chosen.dir).getD 0
    if now - lastTs < cfg.cooldownMs then (st, none)
    else if ¬ passMinMove cfg st ctx chosen.dir then (st, none)
    else
      let approxKey := buildApproxKey cfg ctx.sym chosen.dir chosen
      if st.lastSigKey ctx.sym chosen.dir = some approxKey ∧ now - lastTs < cfg.dedupMs then
        (st, none)
      else
        let st' : AggState :=
          { lastEmitTs := updMap st.lastEmitTs ctx.sym chosen.dir now
            lastEmitPx := updMap st.lastEmitPx ctx.sym chosen.dir ctx.win.last
            lastSigKey := updMap st.lastSigKey ctx.sym chosen.dir approxKey }
        (st', some (aggEnrich ctx chosen approxKey))

/-! ## Wire rows (Redis stream fields) -/

/-- Value of one stream field.  On the wire everything is a string; the
constructors record how it was produced, so that Number() parsing and
string equality stay decidable: int n and num q denote the canonical
renderings of those numbers, str is any other string, akey the
approx-key rendering. -/
inductive WireVal where
  | str (v : String)
  | int (v : ℤ)
  | num (v : ℚ)
  | akey (v : ApproxKeyData)
deriving DecidableEq, Repr

/-- Field lookup on a wire row (object property access on the flattened
field map). -/
def rowLookup (k : String) (row : List (String × WireVal)) : Option WireVal :=
  (row.find? (fun p => p.1 = k)).map (fun p => p.2)

/-- Number() of a wire field: finite for the numeric renderings, NaN
(none) for absent fields and for the plain strings and approx keys this
system puts on the wire. -/
def wireNum : Option WireVal → Option ℚ
  | some (.int v) => some (v : ℚ)
  | some (.num v) => some v
  | _ => none

/-- JS truthiness of a wire string: every numeric or approx-key
rendering is non-empty, a plain string is truthy iff non-empty. -/
def wireTruthy : WireVal → Bool
  | .str v => v ≠ ""
  | .int _ => true
  | .num _ => true
  | .akey _ => true

/-- Evidence value as the worker serializes it with ?? '': absent keys
become the empty string. -/
def evWire : Option EvVal → WireVal
  | none => .str ""
  | some (.str v) => .str v
  | some (.num v) => .num v
  | some (.akey v) => .akey v

/-- The exact field list WindowWorkerService.detectAndEmit appends to
signal:detected:{sym} for an aggregated signal best (lines 373-393 of
window-worker.service.ts).  Note the absence of evidence.approx_key. -/
def emitFields (sym : String) (best : IntraSignal) (cooldownMs : ℤ) :
    List (String × WireVal) :=
  [("ts", .int best.ts),
   ("kind", .str "intra"),
   ("instId", .str sym),
   ("dir", .str (dirStr best.dir)),
   ("strength", .num best.strength),
   ("evidence.src", evWire (evLookup "src" best.evidence)),
   ("evidence.delta3s", evWire (evLookup "delta3s" best.evidence)),
   ("evidence.zLike", evWire (evLookup "zLike" best.evidence)),
   ("evidence.buyShare3s", evWire (evLookup "buyShare3s" best.evidence)),
   ("evidence.notional3s", evWire (evLookup "notional3s" best.evidence)),
   ("evidence.breakout", evWire (evLookup "breakout" best.evidence)),
   ("evidence.band", evWire (evLookup "band" best.evidence)),
   ("evidence.eps", evWire (evLookup "eps" best.evidence)),
   ("strategyId", .str "intra.v1"),
   ("ttlMs", .int (max 3000 cooldownMs))]

/-! ## Window worker ack policy (WindowWorkerService.loop / toTrade) -/

/-- Parsed trade of WindowWorkerService.toTrade over a wire payload:
none when ts, px or qty does not parse to a finite number.  The side
field is kept only when it is the literal buy or sell (any other value
behaves like undefined in every later comparison). -/
def toTradeP (p : List (String × WireVal)) :
    Option (ℚ × ℚ × ℚ × Option Dir) :=
  match wireNum (rowLookup "ts" p), wireNum (rowLookup "px" p),
      wireNum (rowLookup "qty" p) with
  | some ts, some px, some qty =>
    let side : Option Dir :=
      match rowLookup "side" p with
      | some (.str "buy") => some .buy
      | some (.str "sell") => some .sell
      | _ => none
    some (ts, px, qty, side)
  | _, _, _ => none

/-- Ack decision for one message of the window worker loop. -/
inductive AckOutcome where
  | ackedProcessed
  | skippedNoAck
  | failedNoAck
deriving DecidableEq, Repr

/-- Per-message ack policy of WindowWorkerService.loop (lines 169-231):
non-trade kinds and unparsable trades are skipped by continue before the
message id is pushed onto ackMap; an exception anywhere in steps 1-6
(procFails, the Redis write oracle) is caught and only logged, again
before the ackMap push; only a fully processed message is acked. -/
def loopMsgAck (kind : String) (payload : List (String × WireVal))
    (procFails : Bool) : AckOutcome :=
  if kind ≠ "trades" then .skippedNoAck
  else
    match toTradeP payload with
    | none => .skippedNoAck
    | some _ => if procFails then .failedNoAck else .ackedProcessed

/-! ## Signal router (signal-router.service.ts, P0 gate version) -/

/-- Static router configuration from the environment. -/
structure RouterCfg where
  enabled : Bool
  minStrengthFloor : ℚ
  extraCooldownMs : ℤ
  minSpacingMs : ℤ
  hystHi : ℚ
  hystLo : ℚ
deriving Repr

/-- Defaults: enabled, floor 0.6, extra cooldown 0, min spacing 10000,
HYST_HI 0.75, HYST_LO 0.55. -/
def defaultRouterCfg : RouterCfg :=
  { enabled := true
    minStrengthFloor := 3/5
    extraCooldownMs := 0
    minSpacingMs := 10000
    hystHi := 3/4
    hystLo := 11/20 }

/-- Reference price snapshot getRefPx returns (none when neither book
nor trades offered a usable price). -/
structure RefPx where
  px : ℚ
  source : String
  ts : ℤ
  stale : Bool
deriving Repr

/-- Oracle inputs of one router iteration: the wall clock, the dyn:gate
snapshot (after the getDyn fallbacks), the idempotency lock outcome and
the reference price lookup. -/
structure RouterEnv where
  nowWall : ℤ
  effMin0 : ℚ
  cooldownMs : ℤ
  lockOk : Bool
  ref : Option RefPx
deriving Repr

/-- Router drop reasons (the metrics labels). -/
inductive DropReason where
  | badRow
  | disabled
  | strength
  | cooldown
  | dedup
  | minSpacing
  | hysteresis
  | idempotentLock
deriving DecidableEq, Repr

/-- Outcome of one router message: a publish carries the accepted
direction and strength (the data of the signal.final bus event) next to
the appended row, a drop carries its metrics reason. -/
inductive RouterOut where
  | published (dir : Dir) (strength : ℚ) (row : List (String × WireVal))
  | dropped (reason : DropReason)
deriving DecidableEq, Repr

/-- Router state: per sym-and-dir last emit time and approx key, per-sym
last emitted direction; none models an absent map entry. -/
structure RouterState where
  lastEmitTs : String → Dir → Option ℤ
  lastEmitKey : String → Dir → Option WireVal
  lastEmitDir : String → Option Dir

/-- Fresh router state. -/
def initRouterState : RouterState :=
  { lastEmitTs := fun _ _ => none
    lastEmitKey := fun _ _ => none
    lastEmitDir := fun _ => none }

/-- Parsed dir: h.dir when it is buy or sell, else evidence.dir, and
bad_row when neither is buy or sell. -/
def parseDir (row : List (String × WireVal)) : Option Dir :=
  match rowLookup "dir" row with
  | some (.str "buy") => some .buy
  | some (.str "sell") => some .sell
  | _ =>
    match rowLookup "evidence.dir" row with
    | some (.str "buy") => some .buy
    | some (.str "sell") => some .sell
    | _ => none

/-- The field list the router appends to signal:final:{sym} (part_008
lines 260-287): parsed header, the optional refPx block, the evidence
passthrough and strategyId / ttlMs. -/
def finalRowOf (sym : String) (ts : ℚ) (dir : Dir) (strength : ℚ)
    (ref : Option RefPx) (row : List (String × WireVal)) (cooldownMs : ℤ) :
    List (String × WireVal) :=
  let src := ((rowLookup "evidence.src" row).orElse
    (fun _ => rowLookup "src" row)).getD (.str "unknown")
  let pass := fun (k : String) => (rowLookup k row).getD (.str "")
  [("ts", .num ts), ("instId", .str sym), ("dir", .str (dirStr dir)),
   ("strength", .num strength)]
  ++ (match ref with
      | some r =>
        [("refPx", .num r.px), ("refPx_source", .str r.source),
         ("refPx_ts", .int r.ts), ("refPx_stale", .str (if r.stale then "true" else "false"))]
      | none => [])
  ++ [("evidence.src", src),
      ("evidence.notional3s", pass "evidence.notional3s"),
      ("evidence.delta3s", pass "evidence.delta3s"),
      ("evidence.zLike", pass "evidence.zLike"),
      ("evidence.buyShare3s", pass "evidence.buyShare3s"),
      ("evidence.breakout", pass "evidence.breakout"),
      ("evidence.band", pass "evidence.band"),
      ("evidence.eps", pass "evidence.eps"),
      ("strategyId", (rowLookup "strategyId" row).getD (.str "intra.v1")),
      ("ttlMs", (rowLookup "ttlMs" row).getD (.int (max 3000 cooldownMs)))]

/-- The per-key last emit time as the cooldown gates read it:
this.lastEmitTs.get(stateKey) || 0. -/
def routerLastTs (st : RouterState) (sym : String) (dir : Dir) : ℚ :=
  ((st.lastEmitTs sym dir).map (fun n => (n : ℚ))).getD 0

/-- The parsed approx key: String(h[evidence.approx_key] ?? ''). -/
def routerApproxKey (row : List (String × WireVal)) : WireVal :=
  (rowLookup "evidence.approx_key" row).getD (.str "")

/-- The dedup condition (part_008 lines 183-197): a truthy stored key
equal to a truthy incoming key, still inside the publish cooldown. -/
def routerDedupHit (cfg : RouterCfg) (st : RouterState) (env : RouterEnv)
    (sym : String) (row : List (String × WireVal)) (ts : ℚ) (dir : Dir) : Bool :=
  match st.lastEmitKey sym dir with
  | some k => wireTruthy k && wireTruthy (routerApproxKey row)
      && decide (k = routerApproxKey row)
      && decide (ts - routerLastTs st sym dir
          < ((env.cooldownMs + cfg.extraCooldownMs : ℤ) : ℚ))
  | none => false

/-- needHi of the hysteresis gate: a recorded direction that differs. -/
def routerNeedHi (st : RouterState) (sym : String) (dir : Dir) : Bool :=
  match st.lastEmitDir sym with
  | some d => decide (d ≠ dir)
  | none => false

/-- passHysteresis (part_008 lines 211-225). -/
def routerPassHyst (cfg : RouterCfg) (st : RouterState) (sym : String)
    (dir : Dir) (strength : ℚ) : Bool :=
  if routerNeedHi st sym dir then decide (cfg.hystHi ≤ strength)
  else decide (cfg.hystLo ≤ strength)

/-- State recording after a publish (part_008 lines 291-294): wall
clock into lastEmitTs, the direction per symbol, and the approx key
only when truthy. -/
def routerRecord (st : RouterState) (env : RouterEnv) (sym : String) (dir : Dir)
    (key : WireVal) : RouterState :=
  { lastEmitTs := updMap st.lastEmitTs sym dir env.nowWall
    lastEmitDir := fun s => if s = sym then some dir else st.lastEmitDir s
    lastEmitKey :=
      if wireTruthy key then updMap st.lastEmitKey sym dir key else st.lastEmitKey }

/-- One message of SignalRouterService.loop (part_008 lines 104-313):
parse, bad_row and disabled checks, strength floor, publish cooldown,
dedup, min spacing, hysteresis, idempotency lock, then publish and
record state.  Timestamps flow exactly as in the source: the gates
compare the signal ts, min spacing compares the wall clock, and the
recorded lastEmitTs is the wall clock of the publish. -/
def routerStep (cfg : RouterCfg) (st : RouterState) (env : RouterEnv)
    (sym : String) (row : List (String × WireVal)) : RouterState × RouterOut :=
  match wireNum (rowLookup "ts" row), parseDir row with
  | some ts, some dir =>
    if sym = "" then (st, .dropped .badRow)
    else if ¬ cfg.enabled then (st, .dropped .disabled)
    else
      match wireNum (rowLookup "strength" row) with
      | none => (st, .dropped .strength)
      | some strength =>
        if strength < max cfg.minStrengthFloor env.effMin0 then (st, .dropped .strength)
        else if ts - routerLastTs st sym dir
            < ((env.cooldownMs + cfg.extraCooldownMs : ℤ) : ℚ) then
          (st, .dropped .cooldown)
        else if routerDedupHit cfg st env sym row ts dir then (st, .dropped .dedup)
        else if (env.nowWall : ℚ) - routerLastTs st sym dir < (cfg.minSpacingMs : ℚ) then
          (st, .dropped .minSpacing)
        else if ¬ routerPassHyst cfg st sym dir strength then (st, .dropped .hysteresis)
        else if ¬ env.lockOk then (st, .dropped .idempotentLock)
        else
          (routerRecord st env sym dir (routerApproxKey row),
            .published dir strength (finalRowOf sym ts dir strength env.ref row env.cooldownMs))
  | _, _ => (st, .dropped .badRow)

/-- One router input: the oracle environment, the symbol derived from
the stream key, and the raw row. -/
structure RouterMsgIn where
  env : RouterEnv
  sym : String
  row : List (String × WireVal)

/-- A run of the router loop over a list of messages, returning the
final state and the per-message outcomes in order. -/
def runRouter (cfg : RouterCfg) (st : RouterState) :
    List RouterMsgIn → RouterState × List RouterOut
  | [] => (st, [])
  | m :: rest =>
    let next := routerStep cfg st m.env m.sym m.row
    let tail := runRouter cfg next.1 rest
    (tail.1, next.2 :: tail.2)

/-- A run of the aggregator over a list of detector contexts. -/
def runAgg (cfg : AggregatorConfig) (st : AggState) :
    List DetectorCtx → AggState × List (Option IntraSignal)
  | [] => (st, [])
  | c :: rest =>
    let next := aggDetect cfg st c
    let tail := runAgg cfg next.1 rest
    (tail.1, next.2 :: tail.2)

/-! ## Helper accessors used by the theorems -/

/-- The audit row a tick result emits, if any. -/
def emittedRow : TickResult → Option EvalRow
  | .emit r _ => some r
  | _ => none

/-- Fallback row for Option extraction in closed statements. -/
def dummyEvalRow : EvalRow :=
  { ts0 := 0, dueAt := 0, horizon := "", dir := .buy, p0 := 0, usedPx := none,
    usedPxTs := 0, usedPxSource := "", priceLagMs := 0, retRawBp := none,
    retNetBp := none, thresholdBp := 0, neutralBandBp := 0, neutral := false,
    success := false, missPx := false, retry := 0 }

/-- The rawBp formula of the evaluator for a direction. -/
def rawBpOf (dir : Dir) (p0 p1 : ℚ) : ℚ :=
  match dir with
  | .buy => (p1 / p0 - 1) * 10000
  | .sell => (p0 / p1 - 1) * 10000

/-- Whether a run of the router from st over msgs publishes some final
signal for symbol sym. -/
def routerPublishesFor (cfg : RouterCfg) : RouterState → List RouterMsgIn → String → Prop
  | _, [], _ => False
  | st, m :: rest, sym =>
    (∃ d s r, m.sym = sym
      ∧ (routerStep cfg st m.env m.sym m.row).2 = RouterOut.published d s r)
    ∨ routerPublishesFor cfg (routerStep cfg st m.env m.sym m.row).1 rest sym

/-! ## Concrete router scenarios -/

/-- Reference price snapshot for the router scenarios. -/
def c2wRef : RefPx := { px := 100, source := "mid", ts := 100000, stale := false }

/-- Environment of the first router scenario message. -/
def c2wEnv1 : RouterEnv :=
  { nowWall := 100000, effMin0 := 7/10, cooldownMs := 9000, lockOk := true,
    ref := some c2wRef }

/-- First scenario row: a buy of strength 0.8. -/
def c2wRow1 : List (String × WireVal) :=
  [("ts", .num 100000), ("dir", .str "buy"), ("strength", .num (4/5))]

/-- Environment of the second router scenario message, 100 s later. -/
def c2wEnv2 : RouterEnv :=
  { nowWall := 200000, effMin0 := 7/10, cooldownMs := 9000, lockOk := true,
    ref := some c2wRef }

/-- Second scenario row: a sell of strength 0.8, flipping the direction. -/
def c2wRow2 : List (String × WireVal) :=
  [("ts", .num 200000), ("dir", .str "sell"), ("strength", .num (4/5))]

/-- Direction-flipping row of strength 0.65: below HYST_HI 0.75 and
also below the effective minimum max(0.6, 0.7). -/
def c2xRow2 : List (String × WireVal) :=
  [("ts", .num 200000), ("dir", .str "sell"), ("strength", .num (13/20))]

/-- First scenario message. -/
def c2wM1 : RouterMsgIn := { env := c2wEnv1, sym := "BTC-USDT-SWAP", row := c2wRow1 }

/-- Second scenario message. -/
def c2wM2 : RouterMsgIn := { env := c2wEnv2, sym := "BTC-USDT-SWAP", row := c2wRow2 }

/-- Second message of the counterexample run: the 0.65 sell. -/
def c2xM2 : RouterMsgIn := { env := c2wEnv2, sym := "BTC-USDT-SWAP", row := c2xRow2 }

/-- Router state after the first scenario message. -/
def c2wSt1 : RouterState :=
  (routerStep defaultRouterCfg initRouterState c2wEnv1 "BTC-USDT-SWAP" c2wRow1).1

/-- A detected signal as the aggregator hands it to detectAndEmit, used
for a worker-produced router input. -/
def c10wSig : IntraSignal :=
  { ts := 100000, dir := .buy, strength := 4/5,
    evidence := [("src", .str "aggressive_flow"), ("dir", .str "buy")],
    kind := some "intra" }

/-- A router input whose row is exactly what detectAndEmit publishes. -/
def c10wMsg : RouterMsgIn :=
  { env := c2wEnv1, sym := "BTC-USDT-SWAP",
    row := emitFields "BTC-USDT-SWAP" c10wSig 7000 }

/-! ## Scenario definitions used by the theorems -/

/-- Concrete job for the C1 witness. -/
def c1wJob : Job :=
  { sym := "S", dir := .buy, ts0 := 0, p0 := 100, hzMs := 300000,
    hzName := "5m", dueAt := 900000, retry := 0 }

/-- Concrete resolver hit for the C1 witness. -/
def c1wHit : PriceHit := { px := 10008/100, ts := some 901000, source := "mid" }

/-- The row the C1 witness job emits. -/
def c1wRow : EvalRow :=
  { ts0 := 0, dueAt := 900000, horizon := "5m", dir := .buy, p0 := 100,
    usedPx := some (10008/100), usedPxTs := 901000, usedPxSource := "mid",
    priceLagMs := 1000, retRawBp := some 8, retNetBp := some 8,
    thresholdBp := 5, neutralBandBp := 2, neutral := false, success := true,
    missPx := false, retry := 0 }

/-- Concrete job of the C1 counterexample. -/
def c1xJob : Job :=
  { sym := "S", dir := .buy, ts0 := 0, p0 := 3, hzMs := 300000,
    hzName := "5m", dueAt := 900000, retry := 0 }

/-- Concrete resolver hit of the C1 counterexample. -/
def c1xHit : PriceHit := { px := 4, ts := some 900000, source := "mid" }

/-- The row the C1 counterexample job emits: retRawBp is the 4dp value
3333.3333. -/
def c1xRow : EvalRow :=
  { ts0 := 0, dueAt := 900000, horizon := "5m", dir := .buy, p0 := 3,
    usedPx := some 4, usedPxTs := 900000, usedPxSource := "mid",
    priceLagMs := 0, retRawBp := some (33333333/10000),
    retNetBp := some (33333333/10000), thresholdBp := 5, neutralBandBp := 2,
    neutral := false, success := true, missPx := false, retry := 0 }

/-- The scenario job: ts0 = 1700000000000, p0 = 100, dir = buy,
horizon 5m, dueAt anchored by ceilToNextMinute. -/
def c3Job : Job :=
  { sym := "BTC-USDT-SWAP", dir := .buy, ts0 := 1700000000000, p0 := 100,
    hzMs := 300000, hzName := "5m",
    dueAt := ceilToNextMinute (1700000000000 + 300000), retry := 0 }

/-- The scenario resolver hit: p1 = 100.08 at dueAt + 1000. -/
def c3Hit : PriceHit :=
  { px := 10008/100, ts := some (1700000340000 + 1000), source := "mid" }

/-- The row the scenario emits. -/
def c3Row : EvalRow :=
  { ts0 := 1700000000000, dueAt := 1700000340000, horizon := "5m",
    dir := .buy, p0 := 100, usedPx := some (10008/100),
    usedPxTs := 1700000341000, usedPxSource := "mid", priceLagMs := 1000,
    retRawBp := some 8, retNetBp := some 8, thresholdBp := 5,
    neutralBandBp := 2, neutral := false, success := true, missPx := false,
    retry := 0 }

/-- A 1m window built by newWin1m and a sequence of applyTrade calls
(px, qty, side), exactly as the worker maintains the bar between two
bucket boundaries. -/
def runBar (closeTs : ℤ) (px0 : ℚ) (trades : List (ℚ × ℚ × Option Dir)) : Win1m :=
  trades.foldl (fun w t => applyTrade w t.1 t.2.1 t.2.2) (newWin1m closeTs px0)

/-- The ordering invariant of a live window. -/
def barOrdered (w : Win1m) : Prop :=
  w.open' ≤ w.high ∧ w.low ≤ w.open' ∧ w.last ≤ w.high ∧ w.low ≤ w.last

/-- A worker run of pushFlow3s over a trade list from the fresh state. -/
def runFlow (cm : ℚ) (trades : List TradeEv) : Flow3s :=
  trades.foldl (fun f t => pushFlow3s f t cm) initFlow3s

/-- The running sums match the buffer contents. -/
def flowSums (f : Flow3s) : Prop :=
  f.buy = (f.buf.map FlowEntry.buy).sum ∧ f.sell = (f.buf.map FlowEntry.sell).sum

/-- The buffer head (the only entry the trim loop ever inspects) is
inside the window. -/
def flowHeadOK (f : Flow3s) : Prop :=
  ∀ e ∈ f.buf.head?, f.maxTs - 3000 ≤ e.ts

/-- Every buffered entry is inside the window of maxTs. -/
def flowWindowed (f : Flow3s) : Prop :=
  ∀ e ∈ f.buf, f.maxTs - 3000 ≤ e.ts ∧ e.ts ≤ f.maxTs

/-- Concrete out-of-order trade sequence for the C5 counterexample. -/
def c5xTrades : List TradeEv :=
  [{ ts := 10000, px := 1, qty := 1, side := some .buy },
   { ts := 9500, px := 1, qty := 1, side := some .buy },
   { ts := 8000, px := 1, qty := 1, side := some .buy },
   { ts := 11500, px := 1, qty := 1, side := some .buy }]

/-- Context that emits a flow buy signal of strength 0.8. -/
def c4wCtx : DetectorCtx :=
  { now := 10000, sym := "BTC-USDT-SWAP", win := newWin1m 60000 100,
    lastPrices := [100], buyNotional3s := 3000, sellNotional3s := 0,
    minNotional3s := 2000, breakoutBandPct := 1/50, dynAbsDelta := 1000,
    dynDeltaK := 10, liqK := 1 }

/-- The flow candidate of the scenario. -/
def c4wFlowSig : IntraSignal :=
  { ts := 10000, dir := .buy, strength := 4/5,
    evidence := [("src", .str "flow"), ("buyShare3s", .num 1),
      ("notional3s", .num 3000), ("delta3s", .num 3000),
      ("liqTh", .num 2000), ("signif", .num (1/2))],
    kind := some "intra" }

/-- The quantized dedup signature of the scenario signal. -/
def c4wKey : ApproxKeyData :=
  { sym := "BTC-USDT-SWAP", dir := .buy, src := .flow, st := 80,
    z := none, sh := some 1 }

/-- The enriched signal the aggregator emits in the scenario. -/
def c4wSig : IntraSignal :=
  { ts := 10000, dir := .buy, strength := 4/5,
    evidence := [("src", .str "flow"), ("buyShare3s", .num 1),
      ("notional3s", .num 3000), ("delta3s", .num 3000),
      ("liqTh", .num 2000), ("signif", .num (1/2)),
      ("dir", .str "buy"),
      ("candidates_hash", .str (hashStr (candJson [c4wFlowSig]))),
      ("approx_key", .akey c4wKey),
      ("zLike_max", .str ""),
      ("buyShare3s_max", .num 1)],
    kind := some "intra" }

/-- Whether a run of aggDetect from st over ctxs emits some signal with
context symbol sym and direction d. -/
def aggEmitsAt (cfg : AggregatorConfig) : AggState → List DetectorCtx → String → Dir → Prop
  | _, [], _, _ => False
  | st, c :: rest, sym, d =>
    (∃ sig, (aggDetect cfg st c).2 = some sig ∧ c.sym = sym ∧ sig.dir = d)
    ∨ aggEmitsAt cfg (aggDetect cfg st c).1 rest sym d

/-- Second scenario context for the C8 witness, 10000 ms after the
first, at a higher price so the min-move gate passes. -/
def c8wCtx2 : DetectorCtx :=
  { now := 20000, sym := "BTC-USDT-SWAP", win := newWin1m 120000 200,
    lastPrices := [200], buyNotional3s := 3000, sellNotional3s := 0,
    minNotional3s := 2000, breakoutBandPct := 1/50, dynAbsDelta := 1000,
    dynDeltaK := 10, liqK := 1 }

/-- The flow candidate of the second scenario context. -/
def c8wFlowSig2 : IntraSignal :=
  { ts := 20000, dir := .buy, strength := 4/5,
    evidence := [("src", .str "flow"), ("buyShare3s", .num 1),
      ("notional3s", .num 3000), ("delta3s", .num 3000),
      ("liqTh", .num 2000), ("signif", .num (1/2))],
    kind := some "intra" }

/-- The signal of the second emission. -/
def c8wSig2 : IntraSignal := aggEnrich c8wCtx2 c8wFlowSig2 c4wKey

/-- The aggregator state after the first scenario emission. -/
def c8wStB : AggState := (aggDetect defaultAggCfg initAggState c4wCtx).1

/-! # Theorems -/



/-! ### C1: evaluator return computation -/

/-- Rounding to 4 decimals moves a value by at most 1/20000. -/
theorem toFixedQ4_close (x : ℚ) : |toFixedQ 4 x - x| ≤ 1/20000 := by
  unfold toFixedQ
  have h := abs_sub_round (x * (10 : ℚ) ^ 4)
  rw [abs_sub_comm] at h
  have heq : (round (x * (10:ℚ)^4) : ℚ) / (10:ℚ)^4 - x
      = ((round (x * (10:ℚ)^4) : ℚ) - x * (10:ℚ)^4) / (10:ℚ)^4 := by ring
  rw [heq, abs_div]
  have h4 : |(10:ℚ)^4| = 10000 := by norm_num
  rw [h4]
  linarith

/-- C1 (amended): for every due evaluation job with entry price p0 > 0
for which the price resolver returns a price p1 > 0, tickResolve emits
exactly one eval:done row whose retRawBp is the 4dp rounding of
(p1/p0 - 1)*10^4 for buy and (p0/p1 - 1)*10^4 for sell (within 1/20000
of the formula, not 1e-9), whose retNetBp is the 4dp rounding of
rawBp - feeBp, and whose neutral and success flags are computed from the
unrounded netBp as neutral = (|netBp| < neutralBandBp) and
success = (not neutral and netBp >= successBp). -/
theorem c1_eval_row_fields (cfg : EvalCfg) (now : ℤ) (j : Job) (h : PriceHit)
    (hdue : j.dueAt ≤ now) (hp1 : 0 < h.px) :
    0 < j.p0 →
    ∀ row removed, tickResolveJob cfg now j (some h) = .emit row removed →
      row.missPx = false
      ∧ row.retRawBp = some (toFixedQ 4 (rawBpOf j.dir j.p0 h.px))
      ∧ row.retNetBp = some (toFixedQ 4 (rawBpOf j.dir j.p0 h.px - cfg.feeBp))
      ∧ row.neutral = decide (|rawBpOf j.dir j.p0 h.px - cfg.feeBp| < cfg.neutralBandBp)
      ∧ row.success = decide (¬ |rawBpOf j.dir j.p0 h.px - cfg.feeBp| < cfg.neutralBandBp
          ∧ cfg.successBp ≤ rawBpOf j.dir j.p0 h.px - cfg.feeBp)
      ∧ |toFixedQ 4 (rawBpOf j.dir j.p0 h.px) - rawBpOf j.dir j.p0 h.px| ≤ 1/20000 := by
  intro _ row removed hrow
  unfold tickResolveJob at hrow
  rw [if_pos hdue] at hrow
  simp only [if_pos hp1] at hrow
  have hfields := congrArg emittedRow hrow
  simp only [emittedRow] at hfields
  cases hfields
  refine ⟨rfl, ?_, ?_, ?_, ?_, toFixedQ4_close _⟩
  · cases j.dir <;> simp [rawBpOf]
  · cases j.dir <;> simp [rawBpOf]
  · cases j.dir <;> simp [rawBpOf]
  · cases j.dir <;> simp [rawBpOf]

/-- Evaluation of the C1 witness scenario. -/
theorem c1w_eval :
    tickResolveJob defaultEvalCfg 1000000 c1wJob (some c1wHit) = .emit c1wRow true := by
  unfold tickResolveJob c1wJob c1wHit c1wRow defaultEvalCfg
  norm_num [toFixedQ, round_eq, EvalRow.mk.injEq]

/-- Witness for C1 at a concrete input: the default config, a due buy
job with p0 = 100 and a resolver price 100.08; every hypothesis of the
theorem holds and the row fields match. -/

theorem c1_eval_row_fields_witness :
    c1wJob.dueAt ≤ 1000000 ∧ 0 < c1wHit.px ∧ 0 < c1wJob.p0 ∧
      c1wRow.retRawBp = some (toFixedQ 4 (rawBpOf c1wJob.dir c1wJob.p0 c1wHit.px)) :=
  ⟨by norm_num [c1wJob], by norm_num [c1wHit], by norm_num [c1wJob],
    (c1_eval_row_fields defaultEvalCfg 1000000 c1wJob c1wHit
      (by norm_num [c1wJob]) (by norm_num [c1wHit]) (by norm_num [c1wJob])
      c1wRow true c1w_eval).2.1⟩

/-- C1 counterexample: for the due job p0 = 3, p1 = 4 (buy, defaults)
the written row has retRawBp = 3333.3333, which differs from
(p1/p0 - 1)*10^4 = 10000/3 by 1/30000 > 1e-9, so the claimed 1e-9 bound
on the written row is false. -/
theorem c1_counterexample :
    tickResolveJob defaultEvalCfg 1000000 c1xJob (some c1xHit) = .emit c1xRow true
    ∧ c1xRow.retRawBp = some (33333333/10000)
    ∧ ¬ |(33333333/10000 : ℚ) - rawBpOf .buy 3 4| ≤ 1/1000000000 := by
  refine ⟨?_, rfl, ?_⟩
  · unfold tickResolveJob c1xJob c1xHit c1xRow defaultEvalCfg
    have habs : |(10000:ℚ)/3| = 10000/3 := abs_of_nonneg (by norm_num)
    norm_num [toFixedQ, round_eq, EvalRow.mk.injEq]
    rw [habs]
    norm_num
  · unfold rawBpOf
    rw [not_le, abs_of_nonpos (by norm_num)]
    norm_num

/-! ### C3: evaluator success scenario -/

/-- The dueAt anchor of the scenario. -/
theorem c3_dueAt : ceilToNextMinute (1700000000000 + 300000) = 1700000340000 := by
  decide

/-- C3 (amended): with the defaults, the scenario job emits exactly one
eval:done row with rawBp = 8 (not 80), netBp = 8, neutral = false,
success = true and priceLagMs = 1000, at
dueAt = ceilToNextMinute(ts0 + 300000) = 1700000340000. -/
theorem c3_eval_success_scenario :
    c3Job.dueAt = 1700000340000
    ∧ tickResolveJob defaultEvalCfg 1700000340001 c3Job (some c3Hit) = .emit c3Row true
    ∧ c3Row.retRawBp = some 8 ∧ c3Row.retNetBp = some 8
    ∧ c3Row.neutral = false ∧ c3Row.success = true
    ∧ c3Row.priceLagMs = 1000 := by
  refine ⟨by rw [c3Job]; exact c3_dueAt, ?_, rfl, rfl, rfl, rfl, rfl⟩
  unfold tickResolveJob c3Job c3Hit c3Row defaultEvalCfg
  rw [c3_dueAt]
  norm_num [toFixedQ, round_eq, EvalRow.mk.injEq]

/-- C3 counterexample: in the claimed scenario the written rawBp is 8,
not 80. -/
theorem c3_counterexample :
    tickResolveJob defaultEvalCfg 1700000340001 c3Job (some c3Hit) = .emit c3Row true
    ∧ c3Row.retRawBp = some 8 ∧ c3Row.retRawBp ≠ some (80:ℚ) := by
  refine ⟨?_, rfl, by rw [c3Row]; simp⟩
  unfold tickResolveJob c3Job c3Hit c3Row defaultEvalCfg
  rw [c3_dueAt]
  norm_num [toFixedQ, round_eq, EvalRow.mk.injEq]

/-! ### C6: bar closedness -/

theorem applyTrade_ordered {w : Win1m} (hw : barOrdered w) (px qty : ℚ)
    (side : Option Dir) : barOrdered (applyTrade w px qty side) := by
  obtain ⟨h1, h2, h3, h4⟩ := hw
  unfold applyTrade barOrdered
  split_ifs with ha hb hb <;>
    refine ⟨?_, ?_, ?_, ?_⟩ <;> simp <;> linarith

theorem runBar_ordered (closeTs : ℤ) (px0 : ℚ)
    (trades : List (ℚ × ℚ × Option Dir)) : barOrdered (runBar closeTs px0 trades) := by
  unfold runBar
  have h0 : barOrdered (newWin1m closeTs px0) := by
    unfold newWin1m barOrdered
    refine ⟨le_refl _, le_refl _, le_refl _, le_refl _⟩
  generalize newWin1m closeTs px0 = w at h0 ⊢
  induction trades generalizing w with
  | nil => exact h0
  | cons t rest ih => exact ih _ (applyTrade_ordered h0 t.1 t.2.1 t.2.2)

/-- C6: every sealed 1m bar built from newWin1m and applyTrade calls
(with finite numeric px, which rationals model) satisfies
high >= open, high >= close, low <= open and low <= close, and its vwap
is vwapNum/vwapDen when vwapDen > 0 and the close otherwise. -/
theorem c6_bar_closedness (closeTs : ℤ) (px0 : ℚ)
    (trades : List (ℚ × ℚ × Option Dir)) (gap : Bool) :
    let w := runBar closeTs px0 trades
    let row := sealRow w gap
    row.open' ≤ row.high ∧ row.close ≤ row.high
    ∧ row.low ≤ row.open' ∧ row.low ≤ row.close
    ∧ (0 < w.vwapDen → row.vwap = w.vwapNum / w.vwapDen)
    ∧ (¬ 0 < w.vwapDen → row.vwap = row.close) := by
  intro w row
  obtain ⟨h1, h2, h3, h4⟩ := runBar_ordered closeTs px0 trades
  refine ⟨h1, h3, h2, h4, ?_, ?_⟩
  · intro hden
    simp [row, sealRow, vwapOf, if_pos hden]
  · intro hden
    simp [row, sealRow, vwapOf, if_neg hden]

/-- Witness for C6 at a concrete input: one trade of qty 2 at px 105 on
a bar opened at 100; the vwap branch hypothesis 0 < vwapDen holds. -/
theorem c6_bar_closedness_witness :
    0 < (runBar 60000 100 [(105, 2, some .sell)]).vwapDen
    ∧ (sealRow (runBar 60000 100 [(105, 2, some .sell)]) false).vwap
      = (runBar 60000 100 [(105, 2, some .sell)]).vwapNum
        / (runBar 60000 100 [(105, 2, some .sell)]).vwapDen := by
  have hden : 0 < (runBar 60000 100 [(105, 2, some .sell)]).vwapDen := by
    norm_num [runBar, applyTrade, newWin1m]
  exact ⟨hden, (c6_bar_closedness 60000 100 [(105, 2, some .sell)] false).2.2.2.2.1 hden⟩

/-! ### C7: roll-up conservation -/

theorem accumTf_run (l : List Win1m) : ∀ w : Win1m,
    (l.foldl accumTf w).vol = w.vol + (l.map Win1m.vol).sum
    ∧ (l.foldl accumTf w).high = (l.map Win1m.high).foldl max w.high
    ∧ (l.foldl accumTf w).low = (l.map Win1m.low).foldl min w.low
    ∧ (l.foldl accumTf w).open' = w.open'
    ∧ (l.foldl accumTf w).last = (l.getLast?.getD w).last := by
  induction l with
  | nil => intro w; simp
  | cons b t ih =>
    intro w
    obtain ⟨hv, hh, hl, ho, hc⟩ := ih (accumTf w b)
    have hhi : (accumTf w b).high = max w.high b.high := by
      unfold accumTf
      dsimp only
      split_ifs with h
      · exact (max_eq_right h.le).symm
      · exact (max_eq_left (not_lt.mp h)).symm
    have hlo : (accumTf w b).low = min w.low b.low := by
      unfold accumTf
      dsimp only
      split_ifs with h
      · exact (min_eq_right h.le).symm
      · exact (min_eq_left (not_lt.mp h)).symm
    refine ⟨?_, ?_, ?_, ?_, ?_⟩
    · simp only [List.foldl_cons, hv]
      unfold accumTf
      simp [add_assoc]
    · simp only [List.foldl_cons, hh, hhi, List.map_cons]
    · simp only [List.foldl_cons, hl, hlo, List.map_cons]
    · simp only [List.foldl_cons, ho]
      rfl
    · simp only [List.foldl_cons, hc]
      cases t with
      | nil => rfl
      | cons c t2 =>
        rw [List.getLast?_cons_cons]
        cases hx : (c :: t2).getLast? with
        | none => simp [List.getLast?_eq_none_iff] at hx
        | some x => rfl

/-- C7: a 5m/15m bar sealed after accumulating exactly the 1m bars
b0 :: rest (the first of which seeds the window and, being a sealed 1m
bar, satisfies low <= open <= high) conserves volume as the sum of the
contributing volumes, its high is the maximum of the contributing highs,
its low the minimum of the lows, its open the first contributing open
and its close the last contributing close. -/
theorem c7_rollup_conservation (tfClose tfMs : ℤ) (b0 : Win1m)
    (rest : List Win1m) (gap : Bool)
    (h0 : b0.low ≤ b0.open' ∧ b0.open' ≤ b0.high) :
    let row := sealRow (rollUpRun tfClose tfMs b0 rest) gap
    row.vol = b0.vol + (rest.map Win1m.vol).sum
    ∧ row.high = (rest.map Win1m.high).foldl max b0.high
    ∧ row.low = (rest.map Win1m.low).foldl min b0.low
    ∧ row.open' = b0.open'
    ∧ row.close = (rest.getLast?.getD b0).last := by
  intro row
  obtain ⟨hv, hh, hl, ho, hc⟩ := accumTf_run rest (accumTf (newTfWin tfClose tfMs b0.open') b0)
  have hsv : (accumTf (newTfWin tfClose tfMs b0.open') b0).vol = b0.vol := by
    unfold accumTf newTfWin
    simp
  have hsh : (accumTf (newTfWin tfClose tfMs b0.open') b0).high = b0.high := by
    unfold accumTf newTfWin
    dsimp only
    split_ifs with h
    · rfl
    · exact le_antisymm h0.2 (not_lt.mp h)
  have hsl : (accumTf (newTfWin tfClose tfMs b0.open') b0).low = b0.low := by
    unfold accumTf newTfWin
    dsimp only
    split_ifs with h
    · rfl
    · exact le_antisymm (not_lt.mp h) h0.1
  refine ⟨?_, ?_, ?_, ?_, ?_⟩
  · show (rollUpRun tfClose tfMs b0 rest).vol = _
    rw [rollUpRun, hv, hsv]
  · show (rollUpRun tfClose tfMs b0 rest).high = _
    rw [rollUpRun, hh, hsh]
  · show (rollUpRun tfClose tfMs b0 rest).low = _
    rw [rollUpRun, hl, hsl]
  · show (rollUpRun tfClose tfMs b0 rest).open' = _
    rw [rollUpRun, ho]
    rfl
  · show (rollUpRun tfClose tfMs b0 rest).last = _
    rw [rollUpRun, hc]
    cases rest with
    | nil => rfl
    | cons c t2 =>
      cases hx : (c :: t2).getLast? with
      | none => simp [List.getLast?_eq_none_iff] at hx
      | some x => rfl

/-- Witness for C7 at a concrete input: two contributing 1m bars. -/
theorem c7_rollup_conservation_witness :
    (100:ℚ) ≥ 95 ∧
    (sealRow (rollUpRun 300000 300000
        { startTs := 0, closeTs := 60000, open' := 100, high := 110, low := 95,
          last := 105, vol := 3, vbuy := 1, vsell := 2, vwapNum := 300,
          vwapDen := 3, tickN := 2 }
        [{ startTs := 60000, closeTs := 120000, open' := 105, high := 120,
           low := 90, last := 100, vol := 2, vbuy := 2, vsell := 0,
           vwapNum := 200, vwapDen := 2, tickN := 1 }]) false).vol = 5 := by
  have h := c7_rollup_conservation 300000 300000
    { startTs := 0, closeTs := 60000, open' := 100, high := 110, low := 95,
      last := 105, vol := 3, vbuy := 1, vsell := 2, vwapNum := 300,
      vwapDen := 3, tickN := 2 }
    [{ startTs := 60000, closeTs := 120000, open' := 105, high := 120,
       low := 90, last := 100, vol := 2, vbuy := 2, vsell := 0,
       vwapNum := 200, vwapDen := 2, tickN := 1 }] false
    (by constructor <;> norm_num)
  refine ⟨by norm_num, ?_⟩
  rw [h.1]
  norm_num

/-! ### C5: Flow3s windowing -/

theorem trimFlow_sums (cutoff : ℤ) : ∀ (l : List FlowEntry) (b s : ℚ),
    b = (l.map FlowEntry.buy).sum → s = (l.map FlowEntry.sell).sum →
    (trimFlow cutoff l b s).2.1 = ((trimFlow cutoff l b s).1.map FlowEntry.buy).sum
    ∧ (trimFlow cutoff l b s).2.2 = ((trimFlow cutoff l b s).1.map FlowEntry.sell).sum := by
  intro l
  induction l with
  | nil =>
    intro b s hb hs
    simpa [trimFlow] using ⟨hb, hs⟩
  | cons x rest ih =>
    intro b s hb hs
    by_cases hx : x.ts < cutoff
    · simp only [trimFlow, if_pos hx]
      exact ih (b - x.buy) (s - x.sell)
        (by rw [hb]; simp) (by rw [hs]; simp)
    · simp only [trimFlow, if_neg hx]
      exact ⟨hb, hs⟩

theorem trimFlow_subset (cutoff : ℤ) : ∀ (l : List FlowEntry) (b s : ℚ) (e : FlowEntry),
    e ∈ (trimFlow cutoff l b s).1 → e ∈ l := by
  intro l
  induction l with
  | nil => intro b s e he; simpa [trimFlow] using he
  | cons x rest ih =>
    intro b s e he
    by_cases hx : x.ts < cutoff
    · simp only [trimFlow, if_pos hx] at he
      exact List.mem_cons_of_mem x (ih _ _ e he)
    · simpa only [trimFlow, if_neg hx] using he

theorem trimFlow_head (cutoff : ℤ) : ∀ (l : List FlowEntry) (b s : ℚ),
    ∀ e ∈ (trimFlow cutoff l b s).1.head?, cutoff ≤ e.ts := by
  intro l
  induction l with
  | nil => intro b s e he; simp [trimFlow] at he
  | cons x rest ih =>
    intro b s e he
    by_cases hx : x.ts < cutoff
    · simp only [trimFlow, if_pos hx] at he
      exact ih _ _ e he
    · simp only [trimFlow, if_neg hx, List.head?_cons, Option.mem_def,
        Option.some.injEq] at he
      cases he
      exact not_lt.mp hx

theorem trimFlow_noop (cutoff : ℤ) (l : List FlowEntry) (b s : ℚ)
    (h : ∀ e ∈ l.head?, cutoff ≤ e.ts) : trimFlow cutoff l b s = (l, b, s) := by
  cases l with
  | nil => rfl
  | cons x rest =>
    have hx : ¬ x.ts < cutoff := not_lt.mpr (h x (by simp))
    simp [trimFlow, if_neg hx]

theorem trimFlow_all_ge (cutoff : ℤ) : ∀ (l : List FlowEntry) (b s : ℚ),
    l.Pairwise (fun a b => a.ts ≤ b.ts) →
    ∀ e ∈ (trimFlow cutoff l b s).1, cutoff ≤ e.ts := by
  intro l
  induction l with
  | nil => intro b s _ e he; simp [trimFlow] at he
  | cons x rest ih =>
    intro b s hsort e he
    by_cases hx : x.ts < cutoff
    · simp only [trimFlow, if_pos hx] at he
      exact ih _ _ (List.Pairwise.of_cons hsort) e he
    · simp only [trimFlow, if_neg hx] at he
      rcases List.mem_cons.mp he with rfl | hmem
      · exact not_lt.mp hx
      · exact le_trans (not_lt.mp hx) ((List.pairwise_cons.mp hsort).1 e hmem)

theorem trimFlow_pairwise (cutoff : ℤ) : ∀ (l : List FlowEntry) (b s : ℚ),
    l.Pairwise (fun a b => a.ts ≤ b.ts) →
    (trimFlow cutoff l b s).1.Pairwise (fun a b => a.ts ≤ b.ts) := by
  intro l
  induction l with
  | nil => intro b s h; simpa [trimFlow] using h
  | cons x rest ih =>
    intro b s hsort
    by_cases hx : x.ts < cutoff
    · simp only [trimFlow, if_pos hx]
      exact ih _ _ (List.Pairwise.of_cons hsort)
    · simpa only [trimFlow, if_neg hx] using hsort

theorem pushFlow3s_sums {f : Flow3s} (hf : flowSums f) (t : TradeEv) (cm : ℚ) :
    flowSums (pushFlow3s f t cm) := by
  obtain ⟨hb, hs⟩ := hf
  unfold pushFlow3s flowSums
  by_cases hin : max f.maxTs t.ts - 3000 ≤ t.ts
  · simp only [if_pos hin]
    exact trimFlow_sums _ _ _ _ (by simp [hb]) (by simp [hs])
  · simp only [if_neg hin]
    exact trimFlow_sums _ _ _ _ hb hs

theorem pushFlow3s_headOK (f : Flow3s) (t : TradeEv) (cm : ℚ) :
    flowHeadOK (pushFlow3s f t cm) := by
  unfold pushFlow3s flowHeadOK
  by_cases hin : max f.maxTs t.ts - 3000 ≤ t.ts
  · simp only [if_pos hin]
    exact trimFlow_head _ _ _ _
  · simp only [if_neg hin]
    exact trimFlow_head _ _ _ _

/-- A trade older than maxTs - 3000 leaves the whole state unchanged
(on any reachable state, whose head is inside the window). -/
theorem pushFlow3s_late_noop {f : Flow3s} (hf : flowHeadOK f) (t : TradeEv) (cm : ℚ)
    (hlate : t.ts < f.maxTs - 3000) : pushFlow3s f t cm = f := by
  have hmax : max f.maxTs t.ts = f.maxTs :=
    max_eq_left (le_of_lt (lt_of_lt_of_le hlate (by linarith)))
  have hni : ¬ (max f.maxTs t.ts - 3000 ≤ t.ts) := by
    rw [hmax]
    exact not_le.mpr hlate
  unfold pushFlow3s
  simp only [hmax, if_neg (not_le.mpr hlate)]
  rw [trimFlow_noop _ _ _ _ hf]

theorem runFlow_inv (cm : ℚ) : ∀ (trades : List TradeEv) (f : Flow3s),
    flowSums f → flowHeadOK f →
    flowSums (trades.foldl (fun a u => pushFlow3s a u cm) f)
    ∧ flowHeadOK (trades.foldl (fun a u => pushFlow3s a u cm) f) := by
  intro trades
  induction trades with
  | nil => intro f h1 h2; exact ⟨h1, h2⟩
  | cons t rest ih =>
    intro f h1 h2
    exact ih _ (pushFlow3s_sums h1 t cm) (pushFlow3s_headOK f t cm)

/-- Membership in the pushed buffer comes from the old buffer or is the
new entry at the trade time. -/
theorem pushFlow3s_mem {f : Flow3s} {t : TradeEv} {cm : ℚ} {e : FlowEntry}
    (he : e ∈ (pushFlow3s f t cm).buf) : e ∈ f.buf ∨ e.ts = t.ts := by
  unfold pushFlow3s at he
  by_cases hin : max f.maxTs t.ts - 3000 ≤ t.ts
  · simp only [if_pos hin] at he
    have := trimFlow_subset _ _ _ _ _ he
    rcases List.mem_append.mp this with h | h
    · exact Or.inl h
    · simp at h
      exact Or.inr (by rw [h]; rfl)
  · simp only [if_neg hin] at he
    exact Or.inl (trimFlow_subset _ _ _ _ _ he)

/-- The sorted-input step: sortedness of the buffer and the window bound
are preserved when the incoming trade is at least as late as every
buffered entry. -/
theorem pushFlow3s_sorted_step {f : Flow3s} (t : TradeEv) (cm : ℚ)
    (hsort : f.buf.Pairwise (fun a b => a.ts ≤ b.ts))
    (hwin : flowWindowed f)
    (hle : ∀ e ∈ f.buf, e.ts ≤ t.ts) :
    (pushFlow3s f t cm).buf.Pairwise (fun a b => a.ts ≤ b.ts)
    ∧ flowWindowed (pushFlow3s f t cm) := by
  have hmaxle : f.maxTs ≤ max f.maxTs t.ts := le_max_left _ _
  have htsle : t.ts ≤ max f.maxTs t.ts := le_max_right _ _
  unfold pushFlow3s flowWindowed
  by_cases hin : max f.maxTs t.ts - 3000 ≤ t.ts
  · simp only [if_pos hin]
    have hsort2 : (f.buf ++ [flowEntryOf t cm]).Pairwise
        (fun a b => a.ts ≤ b.ts) := by
      rw [List.pairwise_append]
      refine ⟨hsort, List.pairwise_singleton _ _, ?_⟩
      intro a ha b hb
      simp at hb
      rw [hb]
      exact hle a ha
    refine ⟨trimFlow_pairwise _ _ _ _ hsort2, ?_⟩
    intro e he
    refine ⟨trimFlow_all_ge _ _ _ _ hsort2 e he, ?_⟩
    have := trimFlow_subset _ _ _ _ _ he
    rcases List.mem_append.mp this with h | h
    · exact le_trans (hwin e h).2 hmaxle
    · simp at h
      rw [h]
      exact htsle
  · simp only [if_neg hin]
    refine ⟨trimFlow_pairwise _ _ _ _ hsort, ?_⟩
    intro e he
    refine ⟨trimFlow_all_ge _ _ _ _ hsort e he, ?_⟩
    exact le_trans (hwin e (trimFlow_subset _ _ _ _ _ he)).2 hmaxle

theorem runFlow_sorted (cm : ℚ) : ∀ (trades : List TradeEv) (f : Flow3s),
    f.buf.Pairwise (fun a b => a.ts ≤ b.ts) → flowWindowed f →
    (∀ u ∈ trades, ∀ e ∈ f.buf, e.ts ≤ u.ts) →
    trades.Pairwise (fun a b => a.ts ≤ b.ts) →
    flowWindowed (trades.foldl (fun a u => pushFlow3s a u cm) f) := by
  intro trades
  induction trades with
  | nil => intro f _ hwin _ _; exact hwin
  | cons t rest ih =>
    intro f hsort hwin hle htr
    obtain ⟨hsort2, hwin2⟩ := pushFlow3s_sorted_step t cm hsort hwin
      (fun e he => hle t (by simp) e he)
    refine ih _ hsort2 hwin2 ?_ (List.Pairwise.of_cons htr)
    intro u hu e he
    rcases pushFlow3s_mem he with h | h
    · exact le_trans (hle t (by simp) e h)
        ((List.pairwise_cons.mp htr).1 u hu)
    · rw [h]
      exact (List.pairwise_cons.mp htr).1 u hu

/-- C5 (amended): after any run of pushFlow3s, the running sums always
equal the buffered sums, and a trade with ts < maxTs - 3000 is dropped
leaving the state unchanged; the spread bound
max(ts in buf) - min(ts in buf) <= 3000 holds when trades arrive with
nondecreasing timestamps, but not for out-of-order arrivals (the trim
loop only inspects the buffer head). -/
theorem c5_flow3s_windowing (cm : ℚ) (trades : List TradeEv) (t : TradeEv) :
    (runFlow cm trades).buy = ((runFlow cm trades).buf.map FlowEntry.buy).sum
    ∧ (runFlow cm trades).sell = ((runFlow cm trades).buf.map FlowEntry.sell).sum
    ∧ (t.ts < (runFlow cm trades).maxTs - 3000 → pushFlow3s (runFlow cm trades) t cm = runFlow cm trades)
    ∧ (trades.Pairwise (fun a b => a.ts ≤ b.ts) →
        ∀ e1 ∈ (runFlow cm trades).buf, ∀ e2 ∈ (runFlow cm trades).buf,
          e1.ts - e2.ts ≤ 3000) := by
  have hinit1 : flowSums initFlow3s := by constructor <;> rfl
  have hinit2 : flowHeadOK initFlow3s := by intro e he; simp [initFlow3s] at he
  obtain ⟨hsums, hhead⟩ := runFlow_inv cm trades initFlow3s hinit1 hinit2
  refine ⟨hsums.1, hsums.2, ?_, ?_⟩
  · intro hlate
    exact pushFlow3s_late_noop hhead t cm hlate
  · intro hsorted e1 h1 e2 h2
    have hwin := runFlow_sorted cm trades initFlow3s
      (by simp [initFlow3s]) (by intro e he; simp [initFlow3s] at he)
      (by intro u _ e he; simp [initFlow3s] at he) hsorted
    have b1 := hwin e1 h1
    have b2 := hwin e2 h2
    omega

/-- C5 counterexample: after the out-of-order (but each in-window)
trades at 10000, 9500, 8000, 11500 the buffer holds both 8000 and
11500, a spread of 3500 > 3000, refuting the unconditional claim
max(ts in buf) - min(ts in buf) <= 3000. -/
theorem c5_counterexample :
    (runFlow 1 c5xTrades).buf.map FlowEntry.ts = [10000, 9500, 8000, 11500]
    ∧ ¬ (∀ e1 ∈ (runFlow 1 c5xTrades).buf, ∀ e2 ∈ (runFlow 1 c5xTrades).buf,
          e1.ts - e2.ts ≤ 3000) := by
  constructor
  · decide
  · decide

/-- Witness for C5 at a concrete input: a sorted run where a late trade
is a no-op and the spread bound holds. -/
theorem c5_flow3s_windowing_witness :
    ({ ts := 500, px := 1, qty := 1, side := some .buy } : TradeEv).ts
      < (runFlow 1 [{ ts := 1000, px := 1, qty := 1, side := some .buy },
                    { ts := 4500, px := 1, qty := 1, side := some .sell }]).maxTs - 3000
    ∧ pushFlow3s (runFlow 1 [{ ts := 1000, px := 1, qty := 1, side := some .buy },
                    { ts := 4500, px := 1, qty := 1, side := some .sell }])
        { ts := 500, px := 1, qty := 1, side := some .buy } 1
      = runFlow 1 [{ ts := 1000, px := 1, qty := 1, side := some .buy },
                    { ts := 4500, px := 1, qty := 1, side := some .sell }]
    ∧ (∀ e1 ∈ (runFlow 1 [{ ts := 1000, px := 1, qty := 1, side := some .buy },
                    { ts := 4500, px := 1, qty := 1, side := some .sell }]).buf,
        ∀ e2 ∈ (runFlow 1 [{ ts := 1000, px := 1, qty := 1, side := some .buy },
                    { ts := 4500, px := 1, qty := 1, side := some .sell }]).buf,
          e1.ts - e2.ts ≤ 3000) := by
  have h := c5_flow3s_windowing 1
    [{ ts := 1000, px := 1, qty := 1, side := some .buy },
     { ts := 4500, px := 1, qty := 1, side := some .sell }]
    { ts := 500, px := 1, qty := 1, side := some .buy }
  have hlate : ({ ts := 500, px := 1, qty := 1, side := some .buy } : TradeEv).ts
      < (runFlow 1 [{ ts := 1000, px := 1, qty := 1, side := some .buy },
                    { ts := 4500, px := 1, qty := 1, side := some .sell }]).maxTs - 3000 := by
    decide
  exact ⟨hlate, h.2.2.1 hlate, h.2.2.2 (by decide)⟩

/-! ### C9: window worker ack policy -/

/-- C9 (amended): a trade message whose ts, px or qty does not parse to
a finite number is skipped without being acked and remains pending; but
a per-message processing failure on a well-formed trade is also left
unacked (the catch block only logs), and only a successfully processed
message is acked. -/
theorem c9_ack_policy (payload : List (String × WireVal)) (procFails : Bool) :
    (toTradeP payload = none ↔ (wireNum (rowLookup "ts" payload) = none
      ∨ wireNum (rowLookup "px" payload) = none
      ∨ wireNum (rowLookup "qty" payload) = none))
    ∧ (toTradeP payload = none →
        loopMsgAck "trades" payload procFails = .skippedNoAck)
    ∧ (toTradeP payload ≠ none → procFails = true →
        loopMsgAck "trades" payload procFails = .failedNoAck)
    ∧ (toTradeP payload ≠ none → procFails = false →
        loopMsgAck "trades" payload procFails = .ackedProcessed) := by
  have key : toTradeP payload = none ↔ (wireNum (rowLookup "ts" payload) = none
      ∨ wireNum (rowLookup "px" payload) = none
      ∨ wireNum (rowLookup "qty" payload) = none) := by
    unfold toTradeP
    cases wireNum (rowLookup "ts" payload) <;>
      cases wireNum (rowLookup "px" payload) <;>
        cases wireNum (rowLookup "qty" payload) <;> simp
  refine ⟨key, ?_, ?_, ?_⟩
  · intro h
    unfold loopMsgAck
    rw [if_neg (by simp), h]
  · intro h hpf
    obtain ⟨t, ht⟩ := Option.ne_none_iff_exists'.mp h
    unfold loopMsgAck
    rw [if_neg (by simp), ht, hpf]
    simp
  · intro h hpf
    obtain ⟨t, ht⟩ := Option.ne_none_iff_exists'.mp h
    unfold loopMsgAck
    rw [if_neg (by simp), ht, hpf]
    simp

/-- Witness for C9 at concrete inputs: a payload missing px/qty is
skipped unacked; a complete payload acks on success. -/
theorem c9_ack_policy_witness :
    toTradeP [("ts", WireVal.int 1000)] = none
    ∧ loopMsgAck "trades" [("ts", WireVal.int 1000)] false = .skippedNoAck
    ∧ toTradeP [("ts", WireVal.int 1000), ("px", WireVal.num 100),
        ("qty", WireVal.num 1)] ≠ none
    ∧ loopMsgAck "trades" [("ts", WireVal.int 1000), ("px", WireVal.num 100),
        ("qty", WireVal.num 1)] false = .ackedProcessed :=
  ⟨by decide, (c9_ack_policy _ false).2.1 (by decide), by decide,
    (c9_ack_policy _ false).2.2.2 (by decide) rfl⟩

/-- C9 counterexample: a well-formed trade whose processing throws is
NOT acked (the catch block only logs), contradicting the claim that
every other per-message processing failure is acked. -/
theorem c9_counterexample :
    loopMsgAck "trades" [("ts", WireVal.int 1000), ("px", WireVal.num 100),
      ("qty", WireVal.num 1), ("side", WireVal.str "buy")] true = .failedNoAck
    ∧ AckOutcome.failedNoAck ≠ AckOutcome.ackedProcessed := by
  constructor
  · decide
  · decide

/-! ### Concrete aggregator scenario shared by the C4 theorem and the
C8 witness: a strong pure-buy flow context that only the flow detector
fires on. -/

theorem c4w_flow : detAggressiveFlow c4wCtx = some c4wFlowSig := by
  unfold detAggressiveFlow c4wCtx c4wFlowSig clamp01
  norm_num [toFixedQ, round_eq]

theorem c4w_delta : detDeltaStrength c4wCtx = none := by
  unfold detDeltaStrength c4wCtx
  norm_num

theorem c4w_break : detBreakout c4wCtx = none := by
  unfold detBreakout c4wCtx newWin1m
  norm_num

theorem c4w_choose : aggChoose defaultAggCfg c4wCtx = some c4wFlowSig := by
  unfold aggChoose
  rw [c4w_flow, c4w_delta, c4w_break]
  norm_num +decide [stableSortLE, stableInsert, candLE, chooseLE, srcOf, srcRank,
    evLookup, evTruthy, List.find?, c4wFlowSig, symmetryGate, maxStrengthOf,
    defaultAggCfg, c4wCtx, List.filter, List.length, List.isEmpty,
    List.filterMap, max_def, min_def]

theorem c4w_key : buildApproxKey defaultAggCfg "BTC-USDT-SWAP" Dir.buy c4wFlowSig = c4wKey := by
  unfold buildApproxKey c4wFlowSig c4wKey defaultAggCfg
  norm_num +decide [srcOf, evLookup, evTruthy, List.find?, safeNum, roundToStep,
    round_eq, ApproxKeyData.mk.injEq]

theorem c4w_enrich : aggEnrich c4wCtx c4wFlowSig c4wKey = c4wSig := by
  unfold aggEnrich
  rw [c4w_flow, c4w_delta, c4w_break]
  norm_num +decide [stableSortLE, stableInsert, candLE, srcOf, srcRank,
    evLookup, evTruthy, List.find?, c4wFlowSig, c4wSig, safeNum, toFixedQ,
    round_eq, dirStr, List.filter, List.filterMap, List.max?,
    IntraSignal.mk.injEq]

theorem c4w_agg : (aggDetect defaultAggCfg initAggState c4wCtx).2 = some c4wSig := by
  unfold aggDetect
  rw [c4w_choose]
  have h1 : c4wFlowSig.dir = Dir.buy := rfl
  have h2 : c4wCtx.sym = "BTC-USDT-SWAP" := rfl
  have h3 : c4wCtx.now = 10000 := rfl
  have h4 : defaultAggCfg.cooldownMs = 7000 := rfl
  have h5 : defaultAggCfg.dedupMs = 3000 := rfl
  norm_num [h1, h2, h3, h4, h5, initAggState, passMinMove, c4w_key, c4w_enrich]

/-! ### C4: approx_key on published detected rows -/

/-- The published detected row never carries evidence.approx_key: the
xadd field list of detectAndEmit simply omits the key. -/
theorem emitFields_no_approx_key (sym : String) (sig : IntraSignal) (cd : ℤ) :
    rowLookup "evidence.approx_key" (emitFields sym sig cd) = none := by
  simp +decide [emitFields, rowLookup, List.find?]

/-- C4: the aggregator returns the scenario signal with the quantized
approx_key in its evidence, but the row the Window Worker appends to
signal:detected omits the evidence.approx_key field for every signal,
contradicting the Detected-signal data model (and leaving the router
dedup input empty). -/
theorem c4_approx_key_not_published :
    ((aggDetect defaultAggCfg initAggState c4wCtx).2.map
        (fun sig => evLookup "approx_key" sig.evidence)) = some (some (.akey c4wKey))
    ∧ (∀ sym sig cd, rowLookup "evidence.approx_key" (emitFields sym sig cd) = none) := by
  constructor
  · rw [c4w_agg]
    simp +decide [c4wSig, evLookup, List.find?]
  · exact emitFields_no_approx_key

/-! ### C8: aggregator cooldown -/

/-- Symbolic execution of one aggDetect step: a silent step keeps the
state, and an emission implies the cooldown gate held on the prior
lastEmitTs, records the context time at the emitted sym-and-dir key and
touches no other lastEmitTs entry. -/
theorem aggDetect_spec (cfg : AggregatorConfig) (st : AggState) (ctx : DetectorCtx) :
    ((aggDetect cfg st ctx).2 = none → (aggDetect cfg st ctx).1 = st)
    ∧ (∀ sig, (aggDetect cfg st ctx).2 = some sig →
        cfg.cooldownMs ≤ ctx.now - (st.lastEmitTs ctx.sym sig.dir).getD 0
        ∧ ((aggDetect cfg st ctx).1).lastEmitTs ctx.sym sig.dir = some ctx.now
        ∧ (∀ sym d, ¬ (sym = ctx.sym ∧ d = sig.dir) →
            ((aggDetect cfg st ctx).1).lastEmitTs sym d = st.lastEmitTs sym d)) := by
  unfold aggDetect
  dsimp only
  split
  · exact ⟨fun _ => rfl, fun sig h => by simp at h⟩
  · rename_i chosen heq
    split
    · exact ⟨fun _ => rfl, fun sig h => by simp at h⟩
    · rename_i hcool
      split
      · exact ⟨fun _ => rfl, fun sig h => by simp at h⟩
      · split
        · exact ⟨fun _ => rfl, fun sig h => by simp at h⟩
        · refine ⟨fun h => by simp at h, ?_⟩
          intro sig h
          simp only [Option.some.injEq] at h
          subst h
          have hdir : (aggEnrich ctx chosen
              (buildApproxKey cfg ctx.sym chosen.dir chosen)).dir = chosen.dir := rfl
          rw [hdir]
          refine ⟨not_lt.mp hcool, ?_, ?_⟩
          · simp [updMap]
          · intro sym d hne
            simp only [updMap]
            rw [if_neg hne]

/-- A run with no emission at (sym, d) leaves lastEmitTs at that key
unchanged. -/
theorem runAgg_preserve (cfg : AggregatorConfig) :
    ∀ (mid : List DetectorCtx) (st : AggState) (sym : String) (d : Dir),
    ¬ aggEmitsAt cfg st mid sym d →
    ((runAgg cfg st mid).1).lastEmitTs sym d = st.lastEmitTs sym d := by
  intro mid
  induction mid with
  | nil => intro st sym d _; rfl
  | cons c rest ih =>
    intro st sym d hno
    rw [aggEmitsAt] at hno
    push_neg at hno
    obtain ⟨hhere, hrest⟩ := hno
    have step : ((aggDetect cfg st c).1).lastEmitTs sym d = st.lastEmitTs sym d := by
      cases hout : (aggDetect cfg st c).2 with
      | none => rw [(aggDetect_spec cfg st c).1 hout]
      | some sig =>
        refine ((aggDetect_spec cfg st c).2 sig hout).2.2 sym d ?_
        intro ⟨hs, hd⟩
        exact hhere sig hout hs.symm hd.symm
    calc ((runAgg cfg st (c :: rest)).1).lastEmitTs sym d
        = ((runAgg cfg (aggDetect cfg st c).1 rest).1).lastEmitTs sym d := rfl
      _ = ((aggDetect cfg st c).1).lastEmitTs sym d := ih _ sym d (fun hh => hrest hh)
      _ = st.lastEmitTs sym d := step

/-- C8: for every symbol and direction, two consecutive emissions of
the aggregator in one run (first at context c1, then at context c2 with
no emission for that symbol and direction in between, and no reset)
satisfy c2.now - c1.now >= cooldownMs. -/
theorem c8_agg_cooldown (cfg : AggregatorConfig) (st0 : AggState)
    (pre mid : List DetectorCtx) (c1 c2 : DetectorCtx) (sig1 sig2 : IntraSignal)
    (h1 : (aggDetect cfg (runAgg cfg st0 pre).1 c1).2 = some sig1)
    (hmid : ¬ aggEmitsAt cfg (aggDetect cfg (runAgg cfg st0 pre).1 c1).1 mid c1.sym sig1.dir)
    (h2 : (aggDetect cfg
        (runAgg cfg (aggDetect cfg (runAgg cfg st0 pre).1 c1).1 mid).1 c2).2 = some sig2)
    (hsym : c2.sym = c1.sym) (hdir : sig2.dir = sig1.dir) :
    cfg.cooldownMs ≤ c2.now - c1.now := by
  have e1 := (aggDetect_spec cfg (runAgg cfg st0 pre).1 c1).2 sig1 h1
  have hpres := runAgg_preserve cfg mid (aggDetect cfg (runAgg cfg st0 pre).1 c1).1
    c1.sym sig1.dir hmid
  have e2 := (aggDetect_spec cfg
    (runAgg cfg (aggDetect cfg (runAgg cfg st0 pre).1 c1).1 mid).1 c2).2 sig2 h2
  have gate := e2.1
  rw [hsym, hdir, hpres, e1.2.1] at gate
  simp only [Option.getD_some] at gate
  omega

theorem c8w_flow2 : detAggressiveFlow c8wCtx2 = some c8wFlowSig2 := by
  unfold detAggressiveFlow c8wCtx2 c8wFlowSig2 clamp01
  norm_num [toFixedQ, round_eq]

theorem c8w_delta2 : detDeltaStrength c8wCtx2 = none := by
  unfold detDeltaStrength c8wCtx2
  norm_num

theorem c8w_break2 : detBreakout c8wCtx2 = none := by
  unfold detBreakout c8wCtx2 newWin1m
  norm_num

theorem c8w_choose2 : aggChoose defaultAggCfg c8wCtx2 = some c8wFlowSig2 := by
  unfold aggChoose
  rw [c8w_flow2, c8w_delta2, c8w_break2]
  norm_num +decide [stableSortLE, stableInsert, candLE, chooseLE, srcOf, srcRank,
    evLookup, evTruthy, List.find?, c8wFlowSig2, symmetryGate, maxStrengthOf,
    defaultAggCfg, c8wCtx2, List.filter, List.length, List.isEmpty,
    List.filterMap, max_def, min_def]

theorem c8w_key2 : buildApproxKey defaultAggCfg "BTC-USDT-SWAP" Dir.buy c8wFlowSig2 = c4wKey := by
  unfold buildApproxKey c8wFlowSig2 c4wKey defaultAggCfg
  norm_num +decide [srcOf, evLookup, evTruthy, List.find?, safeNum, roundToStep,
    round_eq, ApproxKeyData.mk.injEq]

theorem c8w_stB :
    c8wStB.lastEmitTs "BTC-USDT-SWAP" Dir.buy = some 10000
    ∧ c8wStB.lastEmitPx "BTC-USDT-SWAP" Dir.buy = some 100
    ∧ c8wStB.lastSigKey "BTC-USDT-SWAP" Dir.buy = some c4wKey := by
  unfold c8wStB aggDetect
  rw [c4w_choose]
  have h1 : c4wFlowSig.dir = Dir.buy := rfl
  have h2 : c4wCtx.sym = "BTC-USDT-SWAP" := rfl
  have h3 : c4wCtx.now = 10000 := rfl
  have h4 : defaultAggCfg.cooldownMs = 7000 := rfl
  have h5 : defaultAggCfg.dedupMs = 3000 := rfl
  have h6 : c4wCtx.win.last = 100 := rfl
  norm_num [h1, h2, h3, h4, h5, h6, initAggState, passMinMove, c4w_key, updMap]

theorem c8w_agg2 : (aggDetect defaultAggCfg c8wStB c8wCtx2).2 = some c8wSig2 := by
  unfold aggDetect
  rw [c8w_choose2]
  have h1 : c8wFlowSig2.dir = Dir.buy := rfl
  have h2 : c8wCtx2.sym = "BTC-USDT-SWAP" := rfl
  have h3 : c8wCtx2.now = 20000 := rfl
  have h4 : defaultAggCfg.cooldownMs = 7000 := rfl
  have h5 : defaultAggCfg.dedupMs = 3000 := rfl
  have h6 : defaultAggCfg.minMoveBp = 3 := rfl
  have h7 : defaultAggCfg.minMoveAtrRatio = 1/5 := rfl
  have hst := c8w_stB
  have hpm : passMinMove defaultAggCfg c8wStB c8wCtx2 Dir.buy = true := by
    unfold passMinMove
    rw [h2, hst.2.1]
    have hlast : c8wCtx2.win.last = 200 := rfl
    have habs : |(1:ℚ)/2| = 1/2 := abs_of_nonneg (by norm_num)
    norm_num [hlast, getAtr, c8wCtx2, newWin1m, h6, h7, max_def, min_def, habs]
  norm_num [h1, h2, h3, h4, h5, hpm, hst.1, hst.2.2, c8w_key2, c8wSig2]

/-- Witness for C8 at a concrete run: two emissions of the scenario
signal 10000 ms apart with no emission in between; the cooldown bound
7000 <= 20000 - 10000 follows from the theorem. -/
theorem c8_agg_cooldown_witness :
    (aggDetect defaultAggCfg (runAgg defaultAggCfg initAggState []).1 c4wCtx).2 = some c4wSig
    ∧ ¬ aggEmitsAt defaultAggCfg
        (aggDetect defaultAggCfg (runAgg defaultAggCfg initAggState []).1 c4wCtx).1
        [] c4wCtx.sym c4wSig.dir
    ∧ (aggDetect defaultAggCfg
        (runAgg defaultAggCfg
          (aggDetect defaultAggCfg (runAgg defaultAggCfg initAggState []).1 c4wCtx).1 []).1
        c8wCtx2).2 = some c8wSig2
    ∧ defaultAggCfg.cooldownMs ≤ c8wCtx2.now - c4wCtx.now :=
  ⟨c4w_agg, fun h => h,
    c8w_agg2,
    c8_agg_cooldown defaultAggCfg initAggState [] [] c4wCtx c8wCtx2 c4wSig c8wSig2
      c4w_agg (fun h => h) c8w_agg2 rfl rfl⟩

/-! ### Router step facts shared by C2 and C10 -/

/-- Symbolic execution of one router step: a drop keeps the state; a
publish reports the parsed direction and strength, records the
direction for the symbol (touching no other symbol), and a publish that
flips the recorded direction implies strength >= HYST_HI. -/
theorem routerStep_spec (cfg : RouterCfg) (st : RouterState) (env : RouterEnv)
    (sym : String) (row : List (String × WireVal)) :
    (∀ r, (routerStep cfg st env sym row).2 = .dropped r →
        (routerStep cfg st env sym row).1 = st)
    ∧ (∀ d s r, (routerStep cfg st env sym row).2 = .published d s r →
        parseDir row = some d
        ∧ wireNum (rowLookup "strength" row) = some s
        ∧ ((routerStep cfg st env sym row).1).lastEmitDir sym = some d
        ∧ (∀ sym2, sym2 ≠ sym →
            ((routerStep cfg st env sym row).1).lastEmitDir sym2 = st.lastEmitDir sym2)
        ∧ (∀ d0, st.lastEmitDir sym = some d0 → d0 ≠ d → cfg.hystHi ≤ s)) := by
  rcases hr : routerStep cfg st env sym row with ⟨st', out⟩
  unfold routerStep at hr
  split at hr
  · rename_i ts dir hts hdir
    split at hr
    · injection hr with h1 h2
      subst h1; subst h2
      exact ⟨fun r h => rfl, fun d s r h => by simp at h⟩
    · split at hr
      · injection hr with h1 h2
        subst h1; subst h2
        exact ⟨fun r h => rfl, fun d s r h => by simp at h⟩
      · split at hr
        · injection hr with h1 h2
          subst h1; subst h2
          exact ⟨fun r h => rfl, fun d s r h => by simp at h⟩
        · rename_i strength hstrength
          split at hr
          · injection hr with h1 h2
            subst h1; subst h2
            exact ⟨fun r h => rfl, fun d s r h => by simp at h⟩
          · split at hr
            · injection hr with h1 h2
              subst h1; subst h2
              exact ⟨fun r h => rfl, fun d s r h => by simp at h⟩
            · split at hr
              · injection hr with h1 h2
                subst h1; subst h2
                exact ⟨fun r h => rfl, fun d s r h => by simp at h⟩
              · split at hr
                · injection hr with h1 h2
                  subst h1; subst h2
                  exact ⟨fun r h => rfl, fun d s r h => by simp at h⟩
                · split at hr
                  · injection hr with h1 h2
                    subst h1; subst h2
                    exact ⟨fun r h => rfl, fun d s r h => by simp at h⟩
                  · rename_i hhyst
                    split at hr
                    · injection hr with h1 h2
                      subst h1; subst h2
                      exact ⟨fun r h => rfl, fun d s r h => by simp at h⟩
                    · injection hr with h1 h2
                      subst h1; subst h2
                      refine ⟨fun r h => by simp at h, ?_⟩
                      intro d s r h
                      simp only [RouterOut.published.injEq] at h
                      obtain ⟨rfl, rfl, rfl⟩ := h
                      refine ⟨hdir, hstrength, ?_, ?_, ?_⟩
                      · simp [routerRecord]
                      · intro sym2 hne
                        simp [routerRecord, if_neg hne]
                      · intro d0 hd0 hne
                        rw [not_not] at hhyst
                        have hneed : routerNeedHi st sym dir = true := by
                          unfold routerNeedHi
                          rw [hd0]
                          simp [hne]
                        unfold routerPassHyst at hhyst
                        rw [hneed] at hhyst
                        simp only [if_true] at hhyst
                        exact of_decide_eq_true hhyst
  · injection hr with h1 h2
    subst h1; subst h2
    exact ⟨fun r h => rfl, fun d s r h => by simp at h⟩

/-- A run with no publish for sym leaves lastEmitDir at sym
unchanged. -/
theorem runRouter_preserveDir (cfg : RouterCfg) :
    ∀ (mid : List RouterMsgIn) (st : RouterState) (sym : String),
    ¬ routerPublishesFor cfg st mid sym →
    ((runRouter cfg st mid).1).lastEmitDir sym = st.lastEmitDir sym := by
  intro mid
  induction mid with
  | nil => intro st sym _; rfl
  | cons m rest ih =>
    intro st sym hno
    rw [routerPublishesFor] at hno
    obtain ⟨hhere, hrest⟩ := not_or.mp hno
    have step : ((routerStep cfg st m.env m.sym m.row).1).lastEmitDir sym
        = st.lastEmitDir sym := by
      rcases hout : (routerStep cfg st m.env m.sym m.row).2 with ⟨d, s, r⟩ | r
      · by_cases hs : m.sym = sym
        · exact absurd ⟨d, s, r, hs, hout⟩ hhere
        · exact ((routerStep_spec cfg st m.env m.sym m.row).2 d s r hout).2.2.2.1 sym
            (fun h => hs h.symm)
      · rw [(routerStep_spec cfg st m.env m.sym m.row).1 r hout]
    calc ((runRouter cfg st (m :: rest)).1).lastEmitDir sym
        = ((runRouter cfg (routerStep cfg st m.env m.sym m.row).1 rest).1).lastEmitDir sym :=
          rfl
      _ = ((routerStep cfg st m.env m.sym m.row).1).lastEmitDir sym := ih _ sym hrest
      _ = st.lastEmitDir sym := step

/-- One router step over a row with no evidence.approx_key field never
drops for dedup (the incoming key parses to the empty string, which is
falsy) and leaves every lastEmitKey entry unchanged (a publish skips the
record because the key is falsy). -/
theorem routerStep_no_dedup (cfg : RouterCfg) (st : RouterState) (env : RouterEnv)
    (sym : String) (row : List (String × WireVal))
    (hrow : rowLookup "evidence.approx_key" row = none) :
    (routerStep cfg st env sym row).2 ≠ RouterOut.dropped DropReason.dedup
    ∧ ∀ s d, ((routerStep cfg st env sym row).1).lastEmitKey s d = st.lastEmitKey s d := by
  have hak : routerApproxKey row = WireVal.str "" := by
    unfold routerApproxKey
    rw [hrow]
    rfl
  have hdd : ∀ ts dir, routerDedupHit cfg st env sym row ts dir = false := by
    intro ts dir
    unfold routerDedupHit
    cases hk : st.lastEmitKey sym dir with
    | none => rfl
    | some k => rw [hak]; simp [wireTruthy]
  rcases hr : routerStep cfg st env sym row with ⟨st', out⟩
  unfold routerStep at hr
  split at hr
  · rename_i ts dir hts hdir
    split at hr
    · injection hr with h1 h2
      subst h1; subst h2
      exact ⟨by simp, fun s d => rfl⟩
    · split at hr
      · injection hr with h1 h2
        subst h1; subst h2
        exact ⟨by simp, fun s d => rfl⟩
      · split at hr
        · injection hr with h1 h2
          subst h1; subst h2
          exact ⟨by simp, fun s d => rfl⟩
        · rename_i strength hstrength
          split at hr
          · injection hr with h1 h2
            subst h1; subst h2
            exact ⟨by simp, fun s d => rfl⟩
          · split at hr
            · injection hr with h1 h2
              subst h1; subst h2
              exact ⟨by simp, fun s d => rfl⟩
            · split at hr
              · rename_i hguard
                rw [hdd ts dir] at hguard
                cases hguard
              · split at hr
                · injection hr with h1 h2
                  subst h1; subst h2
                  exact ⟨by simp, fun s d => rfl⟩
                · split at hr
                  · injection hr with h1 h2
                    subst h1; subst h2
                    exact ⟨by simp, fun s d => rfl⟩
                  · split at hr
                    · injection hr with h1 h2
                      subst h1; subst h2
                      exact ⟨by simp, fun s d => rfl⟩
                    · injection hr with h1 h2
                      subst h1; subst h2
                      refine ⟨by simp, fun s d => ?_⟩
                      rw [routerRecord, hak]
                      simp [wireTruthy]
  · injection hr with h1 h2
    subst h1; subst h2
    exact ⟨by simp, fun s d => rfl⟩

/-! ### Concrete router run shared by the C2 theorems -/

/-- The first scenario message publishes buy 0.8: fresh state, strength
0.8 clears every gate. -/
theorem c2w_step1 :
    routerStep defaultRouterCfg initRouterState c2wEnv1 "BTC-USDT-SWAP" c2wRow1
      = (routerRecord initRouterState c2wEnv1 "BTC-USDT-SWAP" Dir.buy (WireVal.str ""),
         RouterOut.published Dir.buy (4/5)
           (finalRowOf "BTC-USDT-SWAP" 100000 Dir.buy (4/5) c2wEnv1.ref c2wRow1
             c2wEnv1.cooldownMs)) := by
  have hts : wireNum (rowLookup "ts" c2wRow1) = some 100000 := rfl
  have hdir : parseDir c2wRow1 = some Dir.buy := rfl
  have hstr : wireNum (rowLookup "strength" c2wRow1) = some (4/5) := rfl
  have hak : routerApproxKey c2wRow1 = WireVal.str "" := rfl
  unfold routerStep
  rw [hts, hdir, hstr, hak]
  norm_num +decide [defaultRouterCfg, c2wEnv1, routerLastTs, initRouterState,
    routerDedupHit, routerNeedHi, routerPassHyst, max_def]

/-- The state after the first scenario message, in record form. -/
theorem c2w_st1_eq :
    c2wSt1 = routerRecord initRouterState c2wEnv1 "BTC-USDT-SWAP" Dir.buy (WireVal.str "") := by
  unfold c2wSt1
  rw [c2w_step1]

/-- The second scenario message publishes the 0.8 sell: the flip passes
hysteresis because 0.8 >= HYST_HI = 0.75. -/
theorem c2w_step2 :
    routerStep defaultRouterCfg c2wSt1 c2wEnv2 "BTC-USDT-SWAP" c2wRow2
      = (routerRecord c2wSt1 c2wEnv2 "BTC-USDT-SWAP" Dir.sell (WireVal.str ""),
         RouterOut.published Dir.sell (4/5)
           (finalRowOf "BTC-USDT-SWAP" 200000 Dir.sell (4/5) c2wEnv2.ref c2wRow2
             c2wEnv2.cooldownMs)) := by
  have hts : wireNum (rowLookup "ts" c2wRow2) = some 200000 := rfl
  have hdir : parseDir c2wRow2 = some Dir.sell := rfl
  have hstr : wireNum (rowLookup "strength" c2wRow2) = some (4/5) := rfl
  have hak : routerApproxKey c2wRow2 = WireVal.str "" := rfl
  have hdirlast : c2wSt1.lastEmitDir "BTC-USDT-SWAP" = some Dir.buy := by
    rw [c2w_st1_eq]
    simp [routerRecord]
  have htslast : c2wSt1.lastEmitTs "BTC-USDT-SWAP" Dir.sell = none := by
    rw [c2w_st1_eq]
    simp +decide [routerRecord, updMap, initRouterState, wireTruthy]
  have hkeylast : c2wSt1.lastEmitKey "BTC-USDT-SWAP" Dir.sell = none := by
    rw [c2w_st1_eq]
    simp +decide [routerRecord, updMap, initRouterState, wireTruthy]
  unfold routerStep
  rw [hts, hdir, hstr, hak]
  norm_num +decide [defaultRouterCfg, c2wEnv2, routerLastTs, routerDedupHit,
    routerNeedHi, routerPassHyst, hdirlast, htslast, hkeylast, max_def]

/-- The 0.65 sell after the buy publish is dropped at the strength gate:
0.65 < max(0.6, 0.7), before hysteresis is even consulted. -/
theorem c2x_step2 :
    routerStep defaultRouterCfg c2wSt1 c2wEnv2 "BTC-USDT-SWAP" c2xRow2
      = (c2wSt1, RouterOut.dropped DropReason.strength) := by
  have hts : wireNum (rowLookup "ts" c2xRow2) = some 200000 := rfl
  have hdir : parseDir c2xRow2 = some Dir.sell := rfl
  have hstr : wireNum (rowLookup "strength" c2xRow2) = some (13/20) := rfl
  unfold routerStep
  rw [hts, hdir, hstr]
  norm_num +decide [defaultRouterCfg, c2wEnv2, max_def]

/-! ### C2: router hysteresis -/

/-- C2 (amended): consecutive publishes of the router for one symbol
that flip direction carry strength >= HYST_HI; a signal flipping the
recorded direction with strength below HYST_HI is never published, and
it is dropped with reason hysteresis when it passes the strength,
cooldown and min-spacing gates (when an earlier gate already fails, the
drop carries that gate's reason instead, e.g. strength when its value is
below max(MIN_STRENGTH_FLOOR, effMin0)). -/
theorem c2_router_hysteresis (cfg : RouterCfg) (st0 : RouterState)
    (pre mid : List RouterMsgIn) (m1 m2 : RouterMsgIn)
    (d1 d2 : Dir) (s1 s2 : ℚ) (r1 r2 : List (String × WireVal))
    (h1 : (routerStep cfg (runRouter cfg st0 pre).1 m1.env m1.sym m1.row).2
      = RouterOut.published d1 s1 r1)
    (hmid : ¬ routerPublishesFor cfg
      (routerStep cfg (runRouter cfg st0 pre).1 m1.env m1.sym m1.row).1 mid m1.sym)
    (h2 : (routerStep cfg
        (runRouter cfg (routerStep cfg (runRouter cfg st0 pre).1 m1.env m1.sym m1.row).1 mid).1
        m2.env m2.sym m2.row).2 = RouterOut.published d2 s2 r2)
    (hsym : m2.sym = m1.sym) (hflip : d2 ≠ d1) :
    cfg.hystHi ≤ s2
    ∧ (∀ st env sym row dir strength d0,
        st.lastEmitDir sym = some d0 → parseDir row = some dir → d0 ≠ dir →
        wireNum (rowLookup "strength" row) = some strength → strength < cfg.hystHi →
        ∀ d s r, (routerStep cfg st env sym row).2 ≠ RouterOut.published d s r)
    ∧ (∀ st env sym row ts dir strength d0,
        st.lastEmitDir sym = some d0 →
        wireNum (rowLookup "ts" row) = some ts → parseDir row = some dir → d0 ≠ dir →
        wireNum (rowLookup "strength" row) = some strength → strength < cfg.hystHi →
        sym ≠ "" → cfg.enabled = true →
        ¬ strength < max cfg.minStrengthFloor env.effMin0 →
        ¬ ts - routerLastTs st sym dir < ((env.cooldownMs + cfg.extraCooldownMs : ℤ) : ℚ) →
        ¬ (env.nowWall : ℚ) - routerLastTs st sym dir < (cfg.minSpacingMs : ℚ) →
        routerStep cfg st env sym row = (st, RouterOut.dropped DropReason.hysteresis)) := by
  refine ⟨?_, ?_, ?_⟩
  · have e1 := (routerStep_spec cfg (runRouter cfg st0 pre).1 m1.env m1.sym m1.row).2
      d1 s1 r1 h1
    have hpres := runRouter_preserveDir cfg mid
      (routerStep cfg (runRouter cfg st0 pre).1 m1.env m1.sym m1.row).1 m1.sym hmid
    have e2 := (routerStep_spec cfg
      (runRouter cfg (routerStep cfg (runRouter cfg st0 pre).1 m1.env m1.sym m1.row).1 mid).1
      m2.env m2.sym m2.row).2 d2 s2 r2 h2
    refine e2.2.2.2.2 d1 ?_ (Ne.symm hflip)
    rw [hsym, hpres, e1.2.2.1]
  · intro st env sym row dir strength d0 hd0 hpd hne hstr hlt d s r hpub
    obtain ⟨hpd2, hstr2, _, _, hhi⟩ := (routerStep_spec cfg st env sym row).2 d s r hpub
    rw [hpd] at hpd2
    rw [hstr] at hstr2
    obtain rfl := Option.some.inj hpd2
    obtain rfl := Option.some.inj hstr2
    exact absurd (hhi d0 hd0 hne) (not_le.mpr hlt)
  · intro st env sym row ts dir strength d0 hd0 hts hpd hne hstr hlt hs hen hfloor hcool hspace
    have hdd : routerDedupHit cfg st env sym row ts dir = false := by
      unfold routerDedupHit
      cases hk : st.lastEmitKey sym dir with
      | none => rfl
      | some k =>
        have hdec : decide (ts - routerLastTs st sym dir
            < ((env.cooldownMs + cfg.extraCooldownMs : ℤ) : ℚ)) = false :=
          decide_eq_false hcool
        simp only [hdec, Bool.and_false]
    have hph : routerPassHyst cfg st sym dir strength = false := by
      unfold routerPassHyst routerNeedHi
      rw [hd0]
      simp [hne, not_le.mpr hlt]
    unfold routerStep
    rw [hts, hpd, hstr]
    rw [not_lt] at hcool
    simp [hs, hen, hfloor, hdd, hspace, hph]
    push_cast at hcool
    exact hcool

/-- C2 counterexample: after publishing buy 0.8 the router receives a
sell of strength 0.65 for the same symbol, a direction flip below
HYST_HI = 0.75, and drops it with reason strength (the effective
minimum max(0.6, 0.7) already rejects it), not hysteresis. -/
theorem c2_counterexample :
    (runRouter defaultRouterCfg initRouterState [c2wM1, c2xM2]).2
      = [RouterOut.published Dir.buy (4/5)
           (finalRowOf "BTC-USDT-SWAP" 100000 Dir.buy (4/5) c2wEnv1.ref c2wRow1
             c2wEnv1.cooldownMs),
         RouterOut.dropped DropReason.strength]
    ∧ c2wSt1.lastEmitDir "BTC-USDT-SWAP" = some Dir.buy
    ∧ parseDir c2xRow2 = some Dir.sell
    ∧ wireNum (rowLookup "strength" c2xRow2) = some (13/20)
    ∧ (13/20 : ℚ) < defaultRouterCfg.hystHi
    ∧ DropReason.strength ≠ DropReason.hysteresis := by
  refine ⟨?_, ?_, rfl, rfl, by norm_num [defaultRouterCfg], by decide⟩
  · have hrun : (runRouter defaultRouterCfg initRouterState [c2wM1, c2xM2]).2
        = (routerStep defaultRouterCfg initRouterState c2wEnv1 "BTC-USDT-SWAP" c2wRow1).2
          :: (routerStep defaultRouterCfg c2wSt1 c2wEnv2 "BTC-USDT-SWAP" c2xRow2).2 :: [] :=
      rfl
    rw [hrun, c2w_step1, c2x_step2]
  · rw [c2w_st1_eq]
    simp [routerRecord]

/-- Witness for C2 at a concrete run: the buy 0.8 publishes, the flipped
sell 0.8 publishes, and the hysteresis bound 0.75 <= 0.8 follows from
the theorem. -/
theorem c2_router_hysteresis_witness :
    (routerStep defaultRouterCfg (runRouter defaultRouterCfg initRouterState []).1
        c2wM1.env c2wM1.sym c2wM1.row).2
      = RouterOut.published Dir.buy (4/5)
          (finalRowOf "BTC-USDT-SWAP" 100000 Dir.buy (4/5) c2wEnv1.ref c2wRow1
            c2wEnv1.cooldownMs)
    ∧ (routerStep defaultRouterCfg
        (runRouter defaultRouterCfg
          (routerStep defaultRouterCfg (runRouter defaultRouterCfg initRouterState []).1
            c2wM1.env c2wM1.sym c2wM1.row).1 []).1
        c2wM2.env c2wM2.sym c2wM2.row).2
      = RouterOut.published Dir.sell (4/5)
          (finalRowOf "BTC-USDT-SWAP" 200000 Dir.sell (4/5) c2wEnv2.ref c2wRow2
            c2wEnv2.cooldownMs)
    ∧ Dir.sell ≠ Dir.buy
    ∧ defaultRouterCfg.hystHi ≤ 4/5 := by
  have hp1 : (routerStep defaultRouterCfg (runRouter defaultRouterCfg initRouterState []).1
      c2wM1.env c2wM1.sym c2wM1.row).2
      = RouterOut.published Dir.buy (4/5)
          (finalRowOf "BTC-USDT-SWAP" 100000 Dir.buy (4/5) c2wEnv1.ref c2wRow1
            c2wEnv1.cooldownMs) := by
    show (routerStep defaultRouterCfg initRouterState c2wEnv1 "BTC-USDT-SWAP" c2wRow1).2 = _
    rw [c2w_step1]
  have hp2 : (routerStep defaultRouterCfg
      (runRouter defaultRouterCfg
        (routerStep defaultRouterCfg (runRouter defaultRouterCfg initRouterState []).1
          c2wM1.env c2wM1.sym c2wM1.row).1 []).1
      c2wM2.env c2wM2.sym c2wM2.row).2
      = RouterOut.published Dir.sell (4/5)
          (finalRowOf "BTC-USDT-SWAP" 200000 Dir.sell (4/5) c2wEnv2.ref c2wRow2
            c2wEnv2.cooldownMs) := by
    show (routerStep defaultRouterCfg c2wSt1 c2wEnv2 "BTC-USDT-SWAP" c2wRow2).2 = _
    rw [c2w_step2]
  exact ⟨hp1, hp2, by decide,
    (c2_router_hysteresis defaultRouterCfg initRouterState [] [] c2wM1 c2wM2
      Dir.buy Dir.sell (4/5) (4/5)
      (finalRowOf "BTC-USDT-SWAP" 100000 Dir.buy (4/5) c2wEnv1.ref c2wRow1
        c2wEnv1.cooldownMs)
      (finalRowOf "BTC-USDT-SWAP" 200000 Dir.sell (4/5) c2wEnv2.ref c2wRow2
        c2wEnv2.cooldownMs)
      hp1 (fun h => h) hp2 rfl (by decide)).1⟩

/-! ### C10: the router never dedups worker-produced rows -/

/-- C10: on rows produced by the Window Worker (the emitFields lists,
which omit evidence.approx_key), the router parses the approx key as the
empty string, never drops a message with reason dedup, and never records
a lastEmitKey entry. -/
theorem c10_router_never_dedup (cfg : RouterCfg) :
    ∀ (msgs : List RouterMsgIn) (st : RouterState),
    (∀ m ∈ msgs, ∃ sym sig cd, m.row = emitFields sym sig cd) →
    (∀ m ∈ msgs, routerApproxKey m.row = WireVal.str "")
    ∧ (∀ out ∈ (runRouter cfg st msgs).2, out ≠ RouterOut.dropped DropReason.dedup)
    ∧ (∀ s d, ((runRouter cfg st msgs).1).lastEmitKey s d = st.lastEmitKey s d) := by
  intro msgs
  induction msgs with
  | nil =>
    intro st _
    exact ⟨fun m hm => absurd hm (List.not_mem_nil m),
      fun out hout => absurd hout (List.not_mem_nil out), fun s d => rfl⟩
  | cons m rest ih =>
    intro st hrows
    obtain ⟨sy, sg, cd, hrow⟩ := hrows m (List.mem_cons_self m rest)
    have hnone : rowLookup "evidence.approx_key" m.row = none := by
      rw [hrow]
      exact emitFields_no_approx_key sy sg cd
    have hstep := routerStep_no_dedup cfg st m.env m.sym m.row hnone
    have ihr := ih (routerStep cfg st m.env m.sym m.row).1
      (fun m2 hm2 => hrows m2 (List.mem_cons_of_mem m hm2))
    refine ⟨?_, ?_, ?_⟩
    · intro m2 hm2
      rcases List.mem_cons.mp hm2 with h | h
      · subst h
        unfold routerApproxKey
        rw [hnone]
        rfl
      · exact ihr.1 m2 h
    · intro out hout
      have hl : (runRouter cfg st (m :: rest)).2
          = (routerStep cfg st m.env m.sym m.row).2
            :: (runRouter cfg (routerStep cfg st m.env m.sym m.row).1 rest).2 := rfl
      rw [hl] at hout
      rcases List.mem_cons.mp hout with h | h
      · rw [h]
        exact hstep.1
      · exact ihr.2.1 out h
    · intro s d
      have h1 : (runRouter cfg st (m :: rest)).1
          = (runRouter cfg (routerStep cfg st m.env m.sym m.row).1 rest).1 := rfl
      rw [h1, ihr.2.2 s d, hstep.2 s d]

/-- Witness for C10: a single worker-produced row runs through the
router without a dedup drop and without a lastEmitKey record. -/
theorem c10_router_never_dedup_witness :
    routerApproxKey c10wMsg.row = WireVal.str ""
    ∧ RouterOut.dropped DropReason.dedup ∉
        (runRouter defaultRouterCfg initRouterState [c10wMsg]).2
    ∧ ((runRouter defaultRouterCfg initRouterState [c10wMsg]).1).lastEmitKey
        "BTC-USDT-SWAP" Dir.buy = none := by
  have h := c10_router_never_dedup defaultRouterCfg [c10wMsg] initRouterState
    (fun m hm => ⟨"BTC-USDT-SWAP", c10wSig, 7000, by rw [List.mem_singleton.mp hm]; rfl⟩)
  exact ⟨h.1 c10wMsg (List.mem_singleton.mpr rfl),
    fun hmem => h.2.1 _ hmem rfl,
    h.2.2 "BTC-USDT-SWAP" Dir.buy⟩

end Quant
